import Mathlib

/-!
# Master.cpp (worldserver): lifecycle orchestration

A shallow embedding of `src/server/worldserver/Master.cpp`:

* `Master.MainLoop` and its pacing step (`Master.pace`, lines 518-524),
* `FreezeDetectorRunnable.run` (lines 69-101),
* `StartDB` / `Master._StartDB` (lines 338-422),
* `Master._OnSignal` (lines 440-456),
* `Master.Run` (lines 113-335).

Unsigned 32-bit values are natural numbers reduced modulo `2 ^ 32` where the
source arithmetic can wrap.  Calls into collaborators (world, databases,
sockets, threads, log) are recorded as `Action`s appended to a trace.  Signals
reach `_OnSignal` while the handlers are hooked: before the network start,
before the main loop, and at the end of each loop iteration.
-/

namespace Worldserver

/-! ## Machine integers and the millisecond clock -/

/-- Number of values of a `uint32`. -/
def UINT32_SIZE : Nat := 2 ^ 32

/-- Conversion of a C `int` to `uint32` (as in `uint32 x = sConfig.GetIntDefault(..)`). -/
def toUInt32 (i : Int) : Nat := (i % (2 ^ 32 : Int)).toNat

/-- Modelled from the spec: `getMSTimeDiff` (declared in Timer.h, which is not among the
sources) yields the "elapsed time since" the older reading of the unsigned 32-bit millisecond
clock, here the 32-bit difference `newMSTime - oldMSTime`. -/
def getMSTimeDiff (oldMSTime newMSTime : Nat) : Nat :=
  (newMSTime + UINT32_SIZE - oldMSTime) % UINT32_SIZE

/-! ## Tick pacing (Master::MainLoop, lines 514-524) -/

namespace Master

/-- The constant `#define WORLD_SLEEP_CONST 5` (line 48). -/
def WORLD_SLEEP_CONST : Nat := 5

/-- Effect of the pacing statement of one loop iteration: the argument passed to
`ACE_Based::Thread::Sleep` if it is called, and the new value of `prevSleepTime`. -/
structure Pace where
  slept : Option Nat
  prevSleepTime : Nat
deriving DecidableEq, Repr

/-- Milliseconds slept by a pacing step: the argument of `Sleep`, 0 when it is not called. -/
def Pace.sleep (p : Pace) : Nat := p.slept.getD 0

/-- Lines 518-524:
```
if (diff <= WORLD_SLEEP_CONST + prevSleepTime)
{
    prevSleepTime = WORLD_SLEEP_CONST + prevSleepTime - diff;
    ACE_Based::Thread::Sleep(prevSleepTime);
}
else
    prevSleepTime = 0;
```
All operands are `uint32`; sums and differences wrap modulo `2 ^ 32`. -/
def pace (prevSleepTime diff : Nat) : Pace :=
  if diff ≤ (WORLD_SLEEP_CONST + prevSleepTime) % UINT32_SIZE then
    let next := ((WORLD_SLEEP_CONST + prevSleepTime) % UINT32_SIZE + UINT32_SIZE - diff) % UINT32_SIZE
    { slept := some next, prevSleepTime := next }
  else
    { slept := none, prevSleepTime := 0 }

/-- Pacing over successive measured diffs, starting from a given `prevSleepTime`:
the sleeps performed, in order. -/
def paceSleeps : Nat → List Nat → List Nat
  | _, [] => []
  | s, d :: ds => (pace s d).sleep :: paceSleeps (pace s d).prevSleepTime ds

/-- Pacing over successive measured diffs: the values taken by `prevSleepTime`,
the starting value first. -/
def paceSlacks : Nat → List Nat → List Nat
  | s, [] => [s]
  | s, d :: ds => s :: paceSlacks (pace s d).prevSleepTime ds

end Master

/-! ## Freeze watchdog (FreezeDetectorRunnable, lines 55-102) -/

/-- What the watchdog observes after each `Sleep(1000)`: the clock (`getMSTime()`),
the world tick counter (`World::m_worldLoopCounter`) and the stop flag
(`sWorld.IsStopped()`). -/
structure Sample where
  curtime : Nat
  worldLoopCounter : Nat
  stopped : Bool
deriving DecidableEq, Repr

/-- The fields of `FreezeDetectorRunnable` that `run` reads after initialising them
(`m_loops` and `m_lastchange` are written once and never read). -/
structure FreezeDetectorRunnable where
  w_loops : Nat
  w_lastchange : Nat
deriving DecidableEq, Repr

namespace FreezeDetectorRunnable

/-- How `run` stands after a finite list of samples. -/
inductive Outcome where
  /-- `_delaytime` is 0: `run` returned at once and took no sample -/
  | inert
  /-- the stop flag was seen at sample `n` (0-based): the loop was left by `break` -/
  | exited (n : Nat)
  /-- the terminate branch (lines 93-97) was reached at sample `n` (0-based) -/
  | freeze (n : Nat)
  /-- all samples given were processed and the loop is still running -/
  | sampling (st : FreezeDetectorRunnable)
deriving DecidableEq, Repr

/-- The `for (;;)` loop of lines 78-99, one sample per iteration; `n` counts the
samples already taken. -/
def loop (_delaytime : Nat) : FreezeDetectorRunnable → Nat → List Sample → Outcome
  | st, _, [] => .sampling st
  | st, n, s :: rest =>
    if s.stopped then .exited n
    else if st.w_loops ≠ s.worldLoopCounter then
      loop _delaytime { w_loops := s.worldLoopCounter, w_lastchange := s.curtime } (n + 1) rest
    else if getMSTimeDiff st.w_lastchange s.curtime > _delaytime then .freeze n
    else loop _delaytime st (n + 1) rest

/-- The method `run` (lines 69-101): returns at once when `_delaytime` is 0, else
zeroes the counters and enters the sampling loop. -/
def run (_delaytime : Nat) (samples : List Sample) : Outcome :=
  if _delaytime = 0 then .inert
  else loop _delaytime { w_loops := 0, w_lastchange := 0 } 0 samples

/-- Number of samples (`getMSTime()` readings) an outcome accounts for. -/
def Outcome.samplesTaken (total : Nat) : Outcome → Nat
  | .inert => 0
  | .exited n => n
  | .freeze n => n + 1
  | .sampling _ => total

/-- Samples of a world thread that stays at tick `c`: `m` samples, 1000 ms apart, the
first one 1000 ms after `L`, none with the stop flag set. -/
def stalled (L c m : Nat) : List Sample :=
  (List.range m).map fun i => { curtime := L + 1000 * (i + 1), worldLoopCounter := c, stopped := false }

end FreezeDetectorRunnable

/-! ## World lifecycle state, collaborators and the action trace -/

/-- Modelled from the spec: the exit codes `SHUTDOWN_EXIT_CODE` and `ERROR_EXIT_CODE`
(declared in World.h, which is not among the sources), "ExitCode: categorical value in
Shutdown, Error". -/
inductive ExitCode where
  | SHUTDOWN_EXIT_CODE
  | ERROR_EXIT_CODE
deriving DecidableEq, Repr

/-- The static members of `World` that Master.cpp uses: the stop flag, the recorded exit
code (`none` while no code has been assigned) and the tick counter.  `exitCodeWrites` is a
ghost field counting the assignments made to the exit code. -/
structure World where
  m_stopEvent : Bool
  m_ExitCode : Option ExitCode
  m_worldLoopCounter : Nat
  exitCodeWrites : Nat
deriving DecidableEq, Repr

namespace World

/-- Modelled from the spec: `World::StopNow` (World.h, not among the sources) requests stop
with an exit code; "a value already at StopRequested/Stopped ignores further stop requests
(idempotent)", the exit code is "write-once" and "a second stop request after the first is
a no-op". -/
def StopNow (exitcode : ExitCode) (w : World) : World :=
  if w.m_stopEvent then w
  else { w with m_stopEvent := true, m_ExitCode := some exitcode,
                exitCodeWrites := w.exitCodeWrites + 1 }

/-- Modelled from the spec: `World::IsStopped` (World.h, not among the sources), the
"stop-flag get" of the world collaborator. -/
def IsStopped (w : World) : Bool := w.m_stopEvent

/-- Modelled from the spec: `World::GetExitCode` (World.h, not among the sources), the
recorded exit code read by `Run` when it returns. -/
def GetExitCode (w : World) : Option ExitCode := w.m_ExitCode

end World

/-- The three databases `WorldDatabase`, `CharacterDatabase`, `LoginDatabase`. -/
inductive Database where
  | World
  | Character
  | Login
deriving DecidableEq, Repr

/-- The name under which `_StartDB` starts a database (`"World"`, `"Character"`, `"Login"`). -/
def Database.name : Database → String
  | .World => "World"
  | .Character => "Character"
  | .Login => "Login"

/-- The worker threads `Run` creates: console, remote admin, SOAP, freeze watchdog. -/
inductive Thread where
  | cli
  | ra
  | soap
  | freeze
deriving DecidableEq, Repr

/-- Signals seen by `_OnSignal` and the hook functions. -/
inductive Signal where
  | SIGINT
  | SIGTERM
  | SIGSEGV
  | other (n : Nat)
deriving DecidableEq, Repr

/-- Second argument of `signal(s, ..)`: the handler `_OnSignal`, or 0. -/
inductive Handler where
  | onSignal
  | zero
deriving DecidableEq, Repr

/-- An argument rendered into a log format string. -/
inductive Arg where
  | str (s : String)
  | int (i : Int)
deriving DecidableEq, Repr

/-- Calls into collaborators, in the order `Master.cpp` makes them.  Releasing a thread
object with `delete` is memory management and is not recorded. -/
inductive Action where
  /-- line 115, `dup(2)` -/
  | dupStderr
  /-- lines 323-324, `dup2(defaultStderr, 2); close(defaultStderr)` -/
  | restoreStderr
  | createPIDFile (path : String)
  | outError (fmt : String) (args : List Arg)
  | outString (fmt : String) (args : List Arg)
  /-- the call `database.Initialize(dbstring, nConnections, nAsyncConnections)` -/
  | dbInitialize (db : Database) (dbstring : String) (nConnections nAsyncConnections : Int)
  | haltDelayThread (db : Database)
  | allowAsyncTransactions (db : Database)
  /-- the calls `PExecute` / `Execute` with a statement -/
  | execute (db : Database) (sql : String)
  /-- line 140, the realmlist update that clears `REALM_FLAG_OFFLINE` -/
  | realmlistOnline (realmID : Int)
  /-- line 298, the realmlist update that sets `REALM_FLAG_OFFLINE` -/
  | realmlistOffline (realmID : Int)
  | setInitialWorldSettings
  | signal (s : Signal) (h : Handler)
  | scriptOnStartup
  /-- construction of an `ACE_Based::Thread` on a new runnable -/
  | spawn (t : Thread)
  | setDelayTime (ms : Nat)
  | setPriorityHighest (t : Thread)
  | startNetwork
  | sleep (ms : Nat)
  | dbThreadStart (db : Database)
  | dbThreadEnd (db : Database)
  | initResultQueue
  | runRegressionTests
  | worldUpdate (diff : Nat)
  | saveAllPlayers
  | kickAll
  | updateSessions (diff : Nat)
  | deleteAllBattlegrounds
  | stopNetwork
  | unloadAll
  | socketMgrWait
  | kill (t : Thread)
  | wait (t : Thread)
deriving DecidableEq, Repr

/-- Log output and the stderr bookkeeping of `Run`, as opposed to startup or teardown steps. -/
def Action.isBookkeeping : Action → Bool
  | .outError _ _ => true
  | .outString _ _ => true
  | .dupStderr => true
  | .restoreStderr => true
  | _ => false

/-- The configuration keys read by `Master.cpp`. -/
structure Config where
  PidFile : String
  RealmID : Int
  DatabaseInfo : Database → String
  DatabaseConnections : Database → Int
  DatabaseWorkerThreads : Database → Int
  ConsoleEnable : Bool
  SOAPEnabled : Bool
  MaxCoreStuckTime : Int

/-- One iteration of the main loop as the environment presents it: the clock reading
`getMSTime()` of line 507 and the signals delivered (and handled by `_OnSignal`) before
the loop condition is tested again.  Signals are handled at these points of a run: before the
network is started, before the main loop is entered, and at the end of each loop iteration
(see `Env`). -/
structure Tick where
  now : Nat
  signals : List Signal
deriving DecidableEq, Repr

/-- Results returned by the collaborators during one run. -/
structure Env where
  config : Config
  /-- result of `CreatePIDFile`, 0 on failure -/
  CreatePIDFile : Nat
  /-- result of `database.Initialize` -/
  Initialize : Database → Bool
  /-- result of `sWorldSocketMgr->StartNetwork` -/
  StartNetwork : Int
  /-- result of `RegressionTestSuite::RunAll` -/
  RunAll : Bool
  /-- the reading `getMSTime()` of line 499 -/
  startTime : Nat
  ticks : List Tick
  /-- signals handled by `_OnSignal` once the handlers are hooked (line 150) and before
  `StartNetwork` is called (line 235) -/
  signalsBeforeNetwork : List Signal
  /-- signals handled after line 258 and before `MainLoop` first tests its loop condition -/
  signalsBeforeLoop : List Signal

/-- Program state threaded through `Master`: the world statics, the trace of actions so
far, and the members `m_handleSigvSignals` and `realmID`. -/
structure St where
  world : World
  trace : List Action
  m_handleSigvSignals : Bool
  realmID : Int
deriving DecidableEq, Repr

/-- State at entry of `Run`: not stopped, no exit code assigned, nothing done. -/
def St.init : St :=
  { world := { m_stopEvent := false, m_ExitCode := none, m_worldLoopCounter := 0,
               exitCodeWrites := 0 },
    trace := [], m_handleSigvSignals := false, realmID := 0 }

/-- Record one action at the end of the trace. -/
def St.emit (st : St) (a : Action) : St := { st with trace := st.trace ++ [a] }

/-- Apply `World::StopNow` to the world statics. -/
def St.StopNow (st : St) (exitcode : ExitCode) : St :=
  { st with world := st.world.StopNow exitcode }


/-! ## StartDB (lines 338-393) -/

/-- Local variables of the scanning loop of lines 358-373.  Iterators into `dbStringLog`
are offsets; `dbStringLog.end()` is the length of the string. -/
structure Scan where
  itr : Nat
  occurrence : Nat
  start : Nat
  stop : Nat
deriving DecidableEq, Repr

/-- The `for` loop of lines 361-373 over the characters `s` of `dbStringLog`; `stop` is the
iterator the source calls `end`.  One unit of fuel per iteration (`itr` advances in each).
```
if (*itr == ';') ++occurrence;
if (occurrence == 3 && start == dbStringLog.end()) start = ++itr;
else if (occurrence == 4 && end == dbStringLog.end()) end = itr;
if (start != dbStringLog.end() && end != dbStringLog.end()) break;
``` -/
def scanLoop (s : List Char) : Nat → Scan → Scan
  | 0, sc => sc
  | fuel + 1, sc =>
    if sc.itr ≠ s.length then
      let occurrence := if s.getD sc.itr ' ' = ';' then sc.occurrence + 1 else sc.occurrence
      let sc1 : Scan :=
        if occurrence = 3 ∧ sc.start = s.length then
          { itr := sc.itr + 1, occurrence := occurrence, start := sc.itr + 1, stop := sc.stop }
        else if occurrence = 4 ∧ sc.stop = s.length then
          { itr := sc.itr, occurrence := occurrence, start := sc.start, stop := sc.itr }
        else
          { itr := sc.itr, occurrence := occurrence, start := sc.start, stop := sc.stop }
      if sc1.start ≠ s.length ∧ sc1.stop ≠ s.length then sc1
      else scanLoop s fuel { sc1 with itr := sc1.itr + 1 }
    else sc

/-- The call `dbStringLog.replace(start, end, "*")` of line 375 on offsets. -/
def replaceRange (s : List Char) (start stop : Nat) : List Char :=
  s.take start ++ '*' :: s.drop stop

/-- Lines 353-381: the log form of the connection string when it holds exactly four
semicolons, `none` when it is rejected as incorrectly formatted. -/
def dbStringLog (dbstring : String) : Option String :=
  let s := dbstring.data
  if s.count ';' = 4 then
    let sc := scanLoop s (s.length + 1)
      { itr := 0, occurrence := 0, start := s.length, stop := s.length }
    some (String.mk (replaceRange s sc.start sc.stop))
  else none

/-- The function `StartDB(name, database)`: its result and the state after it. -/
def StartDB (env : Env) (database : Database) (st : St) : Bool × St :=
  let name := database.name
  let dbstring := env.config.DatabaseInfo database
  let nConnections := env.config.DatabaseConnections database
  let nAsyncConnections := env.config.DatabaseWorkerThreads database
  if dbstring.data = [] then
    (false, st.emit (.outError "%s database not specified in configuration file" [.str name]))
  else
    match dbStringLog dbstring with
    | none =>
      (false, st.emit
        (.outError "Incorrectly formatted database connection string for database %s" [.str name]))
    | some log =>
      let st := st.emit (.outString "%s Database: %s, sync threads: %i, workers: %i"
        [.str name, .str log, .int nConnections, .int nAsyncConnections])
      let st := st.emit (.dbInitialize database dbstring nConnections nAsyncConnections)
      if !env.Initialize database then
        (false, st.emit (.outError "Cannot connect to world database %s" [.str name]))
      else (true, st)

/-! ## Master (lines 395-526) -/

namespace Master

/-- The method `clearOnlineAccounts` (lines 426-431). -/
def clearOnlineAccounts (st : St) : St :=
  (st.emit (.execute .Login "UPDATE account SET online = 0 WHERE online<>0")).emit
    (.execute .Character "UPDATE characters SET online = 0 WHERE online<>0")

/-- The method `_StartDB` (lines 395-422).  It returns `void`: the state is all it yields. -/
def _StartDB (env : Env) (st : St) : St :=
  let st := { st with realmID := env.config.RealmID }
  if st.realmID = 0 then
    st.emit (.outError "Realm ID not defined in configuration file" [])
  else
    let halt (st : St) : St :=
      ((st.emit (.haltDelayThread .World)).emit (.haltDelayThread .Character)).emit
        (.haltDelayThread .Login)
    let w := StartDB env .World st
    if !w.1 then halt w.2
    else
      let c := StartDB env .Character w.2
      if !c.1 then halt c.2
      else
        let l := StartDB env .Login c.2
        if !l.1 then halt l.2
        else
          clearOnlineAccounts
            (l.2.emit (.outString "Realm running as realm ID %d" [.int l.2.realmID]))

/-- The handler `_OnSignal` (lines 440-456). -/
def _OnSignal (s : Signal) (st : St) : St :=
  let st :=
    match s with
    | .SIGINT => st.StopNow .SHUTDOWN_EXIT_CODE
    | .SIGTERM => st.StopNow .SHUTDOWN_EXIT_CODE
    | _ => st
  st.emit (.signal s .onSignal)

/-- The method `ArmAnticrash` (lines 470-474). -/
def ArmAnticrash (st : St) : St := { st with m_handleSigvSignals := true }

/-- The method `_HookSignals` (lines 459-468). -/
def _HookSignals (st : St) : St :=
  ArmAnticrash
    (((st.emit (.signal .SIGINT .onSignal)).emit (.signal .SIGTERM .onSignal)).emit
      (.signal .SIGSEGV .onSignal))

/-- The method `_UnhookSignals` (lines 477-487). -/
def _UnhookSignals (st : St) : St :=
  { ((st.emit (.signal .SIGINT .zero)).emit (.signal .SIGTERM .zero)).emit
      (.signal .SIGSEGV .zero) with m_handleSigvSignals := false }

/-- Body of the `while` loop of `MainLoop` (lines 506-524) for one tick of the environment,
followed by the signals delivered before the loop condition is tested again.  Yields the
state and the new `prevSleepTime`. -/
def tick (t : Tick) (realPrevTime prevSleepTime : Nat) (st : St) : St × Nat :=
  let st := { st with world :=
    { st.world with m_worldLoopCounter := (st.world.m_worldLoopCounter + 1) % UINT32_SIZE } }
  let realCurrTime := t.now
  let diff := getMSTimeDiff realPrevTime realCurrTime
  let st := st.emit (.worldUpdate diff)
  let p := pace prevSleepTime diff
  let st := match p.slept with
    | some ms => st.emit (.sleep ms)
    | none => st
  (t.signals.foldl (fun st s => _OnSignal s st) st, p.prevSleepTime)

/-- The `while (!World::IsStopped())` loop of `MainLoop` over the ticks the environment
supplies.  The flag tells whether the loop was left (`true`) or is still running when the
ticks are used up (`false`). -/
def mainLoop : List Tick → Nat → Nat → St → St × Bool
  | [], _, _, st => (st, st.world.IsStopped)
  | t :: rest, realPrevTime, prevSleepTime, st =>
    if st.world.IsStopped then (st, true)
    else
      let r := tick t realPrevTime prevSleepTime st
      mainLoop rest t.now r.2 r.1

/-- The method `MainLoop` (lines 496-526). -/
def MainLoop (env : Env) (st : St) : St × Bool :=
  mainLoop env.ticks env.startTime 0 st

/-- The thread pointers of `Run` that are tested during teardown: `true` for a thread
object, `false` for `NULL`. -/
structure Locals where
  cliThread : Bool
  soap_thread : Bool
  freeze_thread : Bool
deriving DecidableEq, Repr

/-- Lines 115-129 of `Run`: saving stderr and creating the PID file.  The flag is `false`
when `Run` returns 1 at line 125. -/
def createPid (env : Env) (st : St) : St × Bool :=
  let st := st.emit .dupStderr
  let pidfile := env.config.PidFile
  if pidfile.data ≠ [] then
    let st := st.emit (.createPIDFile pidfile)
    if env.CreatePIDFile = 0 then
      (st.emit (.outError "Cannot create PID file %s.\n" [.str pidfile]), false)
    else (st.emit (.outString "Daemon PID: %u\n" [.int env.CreatePIDFile]), true)
  else (st, true)

/-- Lines 131-150 of `Run`: `_StartDB()` (whose outcome is not inspected), world bootstrap,
realm set online, async transactions allowed, signals hooked. -/
def bootstrap (env : Env) (st : St) : St :=
  let st := _StartDB env st
  let st := st.emit .setInitialWorldSettings
  let st := st.emit (.realmlistOnline st.realmID)
  let st := ((st.emit (.allowAsyncTransactions .Character)).emit
    (.allowAsyncTransactions .World)).emit (.allowAsyncTransactions .Login)
  _HookSignals st

/-- Lines 152-229 of `Run` (the `_WIN32` blocks aside): the console, remote-admin, SOAP and
freeze threads. -/
def spawnWorkers (env : Env) (st : St) : St × Locals :=
  let cliThread := env.config.ConsoleEnable
  let st := if cliThread then st.emit (.spawn .cli) else st
  let st := st.emit .scriptOnStartup
  let st := st.emit (.spawn .ra)
  let soap_thread := env.config.SOAPEnabled
  let st := if soap_thread then st.emit (.spawn .soap) else st
  let freeze_delay := toUInt32 env.config.MaxCoreStuckTime
  let freeze_thread := decide (freeze_delay ≠ 0)
  let st :=
    if freeze_thread then
      ((st.emit (.setDelayTime (freeze_delay * 1000 % UINT32_SIZE))).emit (.spawn .freeze)).emit
        (.setPriorityHighest .freeze)
    else st
  (st, { cliThread := cliThread, soap_thread := soap_thread, freeze_thread := freeze_thread })

/-- Lines 231-249 of `Run`: the listener socket, then the world database thread and the
result queue. -/
def launchNetwork (env : Env) (st : St) : St :=
  let st := st.emit .startNetwork
  let st :=
    if env.StartNetwork = -1 then
      ((st.emit (.outError "Failed to start network" [])).StopNow .ERROR_EXIT_CODE).emit
        (.sleep 1500)
    else st
  (st.emit (.dbThreadStart .World)).emit .initResultQueue

/-- Lines 251-258 of `Run`: the regression tests when `runTests` is set. -/
def regressionTests (env : Env) (runTests : Bool) (st : St) : St :=
  if runTests then
    let st := st.emit .runRegressionTests
    if env.RunAll then st.StopNow .SHUTDOWN_EXIT_CODE else st.StopNow .ERROR_EXIT_CODE
  else st

/-- Lines 115-258 of `Run`: everything before the call of `MainLoop`, with the signals the
environment delivers while the handlers are hooked.  The second component is `none` when
`Run` has returned 1 at line 125. -/
def startup (env : Env) (runTests : Bool) : St × Option Locals :=
  let p := createPid env St.init
  if !p.2 then (p.1, none)
  else
    let w := spawnWorkers env (bootstrap env p.1)
    let st := env.signalsBeforeNetwork.foldl (fun st s => _OnSignal s st) w.1
    let st := regressionTests env runTests (launchNetwork env st)
    (env.signalsBeforeLoop.foldl (fun st s => _OnSignal s st) st, some w.2)

/-- Lines 263-327 of `Run`: everything between the return of `MainLoop` and the final
`return`. -/
def teardown (l : Locals) (st : St) : St :=
  let st := (((st.emit .saveAllPlayers).emit .kickAll).emit (.updateSessions 1)).emit
    .deleteAllBattlegrounds
  let st := ((st.emit .stopNetwork).emit .unloadAll).emit (.dbThreadEnd .World)
  let st := if l.freeze_thread then (st.emit (.kill .freeze)).emit (.wait .freeze) else st
  let st := st.emit .socketMgrWait
  let st := if l.soap_thread then st.emit (.wait .soap) else st
  let st := st.emit (.realmlistOffline st.realmID)
  let st := st.emit (.wait .ra)
  let st := clearOnlineAccounts st
  let st := ((st.emit (.haltDelayThread .Character)).emit (.haltDelayThread .World)).emit
    (.haltDelayThread .Login)
  let st := st.emit (.outString "Halting process..." [])
  let st := if l.cliThread then (st.emit (.kill .cli)).emit (.wait .cli) else st
  let st := st.emit .restoreStderr
  _UnhookSignals st

/-- What `Run` returns: the literal 1 of line 125, or `World::GetExitCode()` of line 334. -/
inductive Return where
  | literal (n : Int)
  | exitCode (c : Option ExitCode)
deriving DecidableEq, Repr

/-- A run of `Master::Run` against an environment: the actions performed, the world
statics at that point, and the value returned (`none` while `MainLoop` has not been left on
the ticks supplied). -/
structure RunResult where
  trace : List Action
  world : World
  ret : Option Return
deriving DecidableEq, Repr

/-- The method `Run(bool runTests)` (lines 113-335). -/
def Run (env : Env) (runTests : Bool) : RunResult :=
  match startup env runTests with
  | (st, none) => { trace := st.trace, world := st.world, ret := some (.literal 1) }
  | (st, some l) =>
    match MainLoop env st with
    | (st, false) => { trace := st.trace, world := st.world, ret := none }
    | (st, true) =>
      let st := teardown l st
      { trace := st.trace, world := st.world, ret := some (.exitCode st.world.GetExitCode) }

end Master

/-! ## Reference descriptions and sample environments -/

/-- The teardown steps in the documented order: save all players, kick all sessions, one
final UpdateSessions pass, delete battleground templates, StopNetwork, MapManager UnloadAll,
WorldDatabase.ThreadEnd, stop and join the freeze watchdog thread (if spawned),
WorldSocketMgr Wait, join the SOAP thread (if spawned), mark the realm offline, join the
remote-admin thread, clearOnlineAccounts (its two statements), HaltDelayThread on each
database, kill and join the console thread (if spawned), unhook signals. -/
def documentedTeardown (realmID : Int) (freeze soap cli : Bool) : List Action :=
  [.saveAllPlayers, .kickAll, .updateSessions 1, .deleteAllBattlegrounds, .stopNetwork,
    .unloadAll, .dbThreadEnd .World]
  ++ (if freeze then [.kill .freeze, .wait .freeze] else [])
  ++ [.socketMgrWait]
  ++ (if soap then [.wait .soap] else [])
  ++ [.realmlistOffline realmID, .wait .ra,
      .execute .Login "UPDATE account SET online = 0 WHERE online<>0",
      .execute .Character "UPDATE characters SET online = 0 WHERE online<>0",
      .haltDelayThread .Character, .haltDelayThread .World, .haltDelayThread .Login]
  ++ (if cli then [.kill .cli, .wait .cli] else [])
  ++ [.signal .SIGINT .zero, .signal .SIGTERM .zero, .signal .SIGSEGV .zero]

/-- Actions of the sequential startup steps of `Run` (lines 115-150 and 231-258): stderr
and PID file handling, log output, `_StartDB`, world bootstrap, signal hooking, network start
and regression tests.  Thread creation (lines 152-229) is not among them. -/
def Action.isStartupStep : Action → Bool
  | .dupStderr => true
  | .createPIDFile _ => true
  | .outError _ _ => true
  | .outString _ _ => true
  | .dbInitialize _ _ _ _ => true
  | .haltDelayThread _ => true
  | .execute _ _ => true
  | .setInitialWorldSettings => true
  | .realmlistOnline _ => true
  | .allowAsyncTransactions _ => true
  | .signal _ .onSignal => true
  | .startNetwork => true
  | .sleep _ => true
  | .dbThreadStart _ => true
  | .initResultQueue => true
  | .runRegressionTests => true
  | _ => false

/-- Actions that occur inside the main loop: world updates, pacing sleeps, and the
re-registration of `_OnSignal` by the handler itself. -/
def Action.isLoopAction : Action → Bool
  | .worldUpdate _ => true
  | .sleep _ => true
  | .signal _ .onSignal => true
  | _ => false

/-- Write-once discipline of the exit code: either no stop was requested and no exit code
was assigned, or stop was requested and the exit code was assigned exactly once. -/
def World.WriteOnce (w : World) : Prop :=
  (w.m_stopEvent = false ∧ w.m_ExitCode = none ∧ w.exitCodeWrites = 0) ∨
  (w.m_stopEvent = true ∧ (∃ c, w.m_ExitCode = some c) ∧ w.exitCodeWrites = 1)

/-- A configuration with a realm id and three well-formed connection strings, console on,
SOAP off, stuck-time threshold 10 s. -/
def sampleConfig : Config :=
  { PidFile := "", RealmID := 1,
    DatabaseInfo := fun _ => "127.0.0.1;3306;mangos;mangos;characters",
    DatabaseConnections := fun _ => 1, DatabaseWorkerThreads := fun _ => 1,
    ConsoleEnable := true, SOAPEnabled := false, MaxCoreStuckTime := 10 }

/-- A run in which every collaborator succeeds and SIGINT arrives during the second tick. -/
def sampleEnv : Env :=
  { config := sampleConfig, CreatePIDFile := 0, Initialize := fun _ => true, StartNetwork := 0,
    RunAll := true, startTime := 100,
    ticks := [{ now := 102, signals := [] }, { now := 107, signals := [.SIGINT] }],
    signalsBeforeNetwork := [], signalsBeforeLoop := [] }

/-- As `sampleEnv`, but `RealmID` is not set in the configuration (it defaults to 0). -/
def realmUnsetEnv : Env := { sampleEnv with config := { sampleConfig with RealmID := 0 } }

/-- As `sampleEnv`, but the character database cannot be reached. -/
def dbDownEnv : Env :=
  { sampleEnv with Initialize := fun db => decide (db ≠ Database.Character) }

/-- As `sampleEnv`, but the database account has an empty password. -/
def emptyPasswordEnv : Env :=
  { sampleEnv with config :=
      { sampleConfig with DatabaseInfo := fun _ => "127.0.0.1;3306;root;;characters" } }

/-- As `sampleEnv`, with the freeze watchdog disabled by `MaxCoreStuckTime = 0`. -/
def noWatchdogEnv : Env := { sampleEnv with config := { sampleConfig with MaxCoreStuckTime := 0 } }

/-! ## Theorems: tick pacing -/

namespace Master

theorem pace_of_le (s d : Nat) (h : WORLD_SLEEP_CONST + s < UINT32_SIZE)
    (hd : d ≤ WORLD_SLEEP_CONST + s) :
    pace s d = { slept := some (WORLD_SLEEP_CONST + s - d),
                 prevSleepTime := WORLD_SLEEP_CONST + s - d } := by
  have e1 : (WORLD_SLEEP_CONST + s) % UINT32_SIZE = WORLD_SLEEP_CONST + s := Nat.mod_eq_of_lt h
  have e2 : (WORLD_SLEEP_CONST + s + UINT32_SIZE - d) % UINT32_SIZE = WORLD_SLEEP_CONST + s - d := by
    have : WORLD_SLEEP_CONST + s + UINT32_SIZE - d = (WORLD_SLEEP_CONST + s - d) + UINT32_SIZE := by
      omega
    rw [this, Nat.add_mod_right]
    exact Nat.mod_eq_of_lt (by omega)
  simp only [pace, e1, e2, if_pos hd]

theorem pace_of_gt (s d : Nat) (h : WORLD_SLEEP_CONST + s < UINT32_SIZE)
    (hd : WORLD_SLEEP_CONST + s < d) :
    pace s d = { slept := none, prevSleepTime := 0 } := by
  have e1 : (WORLD_SLEEP_CONST + s) % UINT32_SIZE = WORLD_SLEEP_CONST + s := Nat.mod_eq_of_lt h
  simp only [pace, e1, if_neg (Nat.not_le.mpr hd)]

/-- C1: one pacing step of `MainLoop` with target `WORLD_SLEEP_CONST = 5`.  For 32-bit slack
`s` and measured diff `d` with `5 + s < 2 ^ 32`: if `d ≤ 5 + s` the step sleeps `5 + s - d` and
that value is the new slack; if `d > 5 + s` the step does not sleep and the new slack is 0.
The sleep equals the exact integer `5 + s - d` when it happens and never exceeds `5 + s`, so
no unsigned underflow occurs.  With `s = 0`, `d = 8` the step sleeps 0 and the slack is 0. -/
theorem pace_step (s d : Nat) (hs : s < UINT32_SIZE) (hd : d < UINT32_SIZE)
    (h : WORLD_SLEEP_CONST + s < UINT32_SIZE) :
    (d ≤ WORLD_SLEEP_CONST + s →
        (pace s d).slept = some (WORLD_SLEEP_CONST + s - d) ∧
        (pace s d).prevSleepTime = WORLD_SLEEP_CONST + s - d ∧
        ((pace s d).sleep : Int) = (WORLD_SLEEP_CONST : Int) + (s : Int) - (d : Int)) ∧
    (WORLD_SLEEP_CONST + s < d →
        (pace s d).slept = none ∧ (pace s d).sleep = 0 ∧ (pace s d).prevSleepTime = 0) ∧
    (pace s d).sleep ≤ WORLD_SLEEP_CONST + s ∧
    (pace s d).sleep = (pace s d).prevSleepTime ∧
    ((pace 0 8).sleep = 0 ∧ (pace 0 8).prevSleepTime = 0) := by
  have _ := hs
  have _ := hd
  refine ⟨fun hle => ?_, fun hgt => ?_, ?_, ?_, by decide⟩
  · rw [pace_of_le s d h hle]
    refine ⟨rfl, rfl, ?_⟩
    simp only [Pace.sleep, Option.getD_some]
    omega
  · rw [pace_of_gt s d h hgt]
    exact ⟨rfl, rfl, rfl⟩
  · rcases Nat.lt_or_ge (WORLD_SLEEP_CONST + s) d with hgt | hle
    · rw [pace_of_gt s d h hgt]; simp [Pace.sleep]
    · rw [pace_of_le s d h hle]; simp [Pace.sleep]
  · rcases Nat.lt_or_ge (WORLD_SLEEP_CONST + s) d with hgt | hle
    · rw [pace_of_gt s d h hgt]; rfl
    · rw [pace_of_le s d h hle]; rfl

/-- Witness of `pace_step` at `s = 0`, `d = 8`. -/
theorem pace_step_witness :
    (pace 0 8).slept = none ∧ (pace 0 8).sleep = 0 ∧ (pace 0 8).prevSleepTime = 0 :=
  (pace_step 0 8 (by decide) (by decide) (by decide)).2.1 (by decide)

/-- C8 as stated fails: with previous sleep `d0 = 2 ^ 32 - 1` and tick cost `t0 = 0` the
measured diff `d0 + t0` fits 32 bits, but `WORLD_SLEEP_CONST + prevSleepTime` wraps to 4, the
step takes the non-sleeping branch and the next sleep is 0, not `5 - t0`. -/
theorem cadence_fails_on_wraparound :
    (4294967295 : Nat) < UINT32_SIZE ∧ (0 : Nat) ≤ WORLD_SLEEP_CONST ∧
    4294967295 + 0 < UINT32_SIZE ∧
    pace 4294967295 (4294967295 + 0) = { slept := none, prevSleepTime := 0 } ∧
    (pace 4294967295 (4294967295 + 0)).slept ≠ some (WORLD_SLEEP_CONST - 0) ∧
    0 + (pace 4294967295 (4294967295 + 0)).sleep ≠ WORLD_SLEEP_CONST := by
  decide

/-- C8 (amended): cadence of the pacing step with target 5.  For every previous sleep `d0`
with `5 + d0 < 2 ^ 32` and every tick cost `t0 ≤ 5`, when the measured diff is `d0 + t0` the
step takes the sleeping branch, the next sleep is `5 - t0`, so `t0` plus the next sleep is 5
and the new slack is at most 5.  From slack 0 the diffs 2, 5, 5 (three ticks costing 2) give
sleeps 3, 3, 3 and slacks 0, 3, 3, 3. -/
theorem pace_cadence (d0 t0 : Nat) (ht : t0 ≤ WORLD_SLEEP_CONST)
    (h : WORLD_SLEEP_CONST + d0 < UINT32_SIZE) :
    (pace d0 (d0 + t0)).slept = some (WORLD_SLEEP_CONST - t0) ∧
    (pace d0 (d0 + t0)).prevSleepTime = WORLD_SLEEP_CONST - t0 ∧
    t0 + (pace d0 (d0 + t0)).sleep = WORLD_SLEEP_CONST ∧
    (pace d0 (d0 + t0)).prevSleepTime ≤ WORLD_SLEEP_CONST ∧
    paceSleeps 0 [0 + 2, 3 + 2, 3 + 2] = [3, 3, 3] ∧
    paceSlacks 0 [0 + 2, 3 + 2, 3 + 2] = [0, 3, 3, 3] := by
  have hle : d0 + t0 ≤ WORLD_SLEEP_CONST + d0 := by omega
  have e : WORLD_SLEEP_CONST + d0 - (d0 + t0) = WORLD_SLEEP_CONST - t0 := by omega
  rw [pace_of_le d0 (d0 + t0) h hle, e]
  refine ⟨rfl, rfl, ?_, Nat.sub_le _ _, by decide, by decide⟩
  simp only [Pace.sleep, Option.getD_some]
  omega

/-- Witness of `pace_cadence` at previous sleep 3 and tick cost 2. -/
theorem pace_cadence_witness :
    (pace 3 (3 + 2)).slept = some (WORLD_SLEEP_CONST - 2) ∧ 2 + (pace 3 (3 + 2)).sleep = 5 :=
  ⟨(pace_cadence 3 2 (by decide) (by decide)).1, (pace_cadence 3 2 (by decide) (by decide)).2.2.1⟩

end Master

/-! ## Theorems: freeze watchdog -/

namespace FreezeDetectorRunnable

theorem getMSTimeDiff_add (L x : Nat) (h : L + x < UINT32_SIZE) : getMSTimeDiff L (L + x) = x := by
  have e : L + x + UINT32_SIZE - L = x + UINT32_SIZE := by omega
  rw [getMSTimeDiff, e, Nat.add_mod_right]
  exact Nat.mod_eq_of_lt (by omega)

theorem loop_append (D : Nat) (pre post : List Sample) :
    ∀ (st st1 : FreezeDetectorRunnable) (n : Nat), loop D st n pre = .sampling st1 →
      loop D st n (pre ++ post) = loop D st1 (n + pre.length) post := by
  induction pre with
  | nil =>
    intro st st1 n h
    simp only [loop, Outcome.sampling.injEq] at h
    simp [h]
  | cons s pre ih =>
    intro st st1 n h
    simp only [loop] at h
    simp only [List.cons_append, loop, List.length_cons, List.append_eq]
    split_ifs at h ⊢ with h1 h2 h3
    · rw [ih _ _ _ h]; congr 1; omega
    · rw [ih _ _ _ h]; congr 1; omega

theorem loop_stalled (D L c : Nat) (tail : List Sample) :
    ∀ (m j n : Nat), 1000 * (j + m) ≤ D → L + 1000 * (j + m) < UINT32_SIZE →
      loop D { w_loops := c, w_lastchange := L } n
        ((List.range' j m).map (fun i =>
          ({ curtime := L + 1000 * (i + 1), worldLoopCounter := c, stopped := false } : Sample))
          ++ tail)
      = loop D { w_loops := c, w_lastchange := L } (n + m) tail := by
  intro m
  induction m with
  | zero => intro j n _ _; simp
  | succ m ih =>
    intro j n hD hw
    have hdiff : getMSTimeDiff L (L + 1000 * (j + 1)) = 1000 * (j + 1) :=
      getMSTimeDiff_add L _ (by omega)
    have hnot : ¬ (1000 * (j + 1) > D) := by omega
    simp only [List.range'_succ, List.map_cons, List.cons_append, loop, hdiff, hnot,
      ne_eq, not_true_eq_false, if_false, Bool.false_eq_true, List.append_eq]
    rw [ih (j + 1) (n + 1) (by omega) (by omega)]
    congr 1
    omega

theorem stalled_succ (L c m : Nat) :
    stalled L c (m + 1) = stalled L c m ++
      [{ curtime := L + 1000 * (m + 1), worldLoopCounter := c, stopped := false }] := by
  simp [stalled, List.range_succ]

/-- C3: freeze detection bound.  Threshold `D > 0`, samples 1000 ms apart, no clock
wraparound.  If the watchdog is still sampling after the samples `pre`, then records a change
of the counter at a sample `ch` taken at time `L`, and the counter keeps that value with the
stop flag unset at the samples that follow, then `run` reaches the terminate branch at the
sample number `D / 1000` after `ch`, whatever samples would come later: that is the first
sample whose time exceeds `L` by more than `D`, and its time is at most `L + D + 1000`. -/
theorem freeze_within_bound (D : Nat) (hD : 0 < D) (pre rest : List Sample)
    (st : FreezeDetectorRunnable) (ch : Sample)
    (hpre : run D pre = .sampling st)
    (hstop : ch.stopped = false) (hch : st.w_loops ≠ ch.worldLoopCounter)
    (hwrap : ch.curtime + D + 1000 < UINT32_SIZE) :
    run D (pre ++ ch :: (stalled ch.curtime ch.worldLoopCounter (D / 1000 + 1) ++ rest))
      = .freeze (pre.length + 1 + D / 1000) ∧
    (pre ++ ch :: (stalled ch.curtime ch.worldLoopCounter (D / 1000 + 1) ++ rest)).get?
        (pre.length + 1 + D / 1000)
      = some { curtime := ch.curtime + 1000 * (D / 1000 + 1),
               worldLoopCounter := ch.worldLoopCounter, stopped := false } ∧
    (∀ s ∈ stalled ch.curtime ch.worldLoopCounter (D / 1000), s.curtime ≤ ch.curtime + D) ∧
    ch.curtime + D < ch.curtime + 1000 * (D / 1000 + 1) ∧
    ch.curtime + 1000 * (D / 1000 + 1) ≤ ch.curtime + D + 1000 := by
  have hD0 : D ≠ 0 := Nat.pos_iff_ne_zero.mp hD
  have hk : 1000 * (D / 1000) ≤ D := Nat.mul_div_le D 1000
  have hk2 : D < 1000 * (D / 1000 + 1) := by
    have := Nat.lt_succ_iff.mpr (Nat.le_refl (D / 1000))
    have := Nat.div_lt_iff_lt_mul (Nat.succ_pos 999) |>.mp this
    omega
  refine ⟨?_, ?_, ?_, by omega, by omega⟩
  · simp only [run, if_neg hD0] at hpre ⊢
    rw [loop_append D pre _ _ _ 0 hpre]
    simp only [loop, hstop, hch, ne_eq, not_false_eq_true, if_true, Bool.false_eq_true, if_false]
    rw [stalled_succ, List.append_assoc, stalled, List.range_eq_range']
    rw [loop_stalled D ch.curtime ch.worldLoopCounter _ (D / 1000) 0 _ (by omega) (by omega)]
    have hdiff : getMSTimeDiff ch.curtime (ch.curtime + 1000 * (D / 1000 + 1))
        = 1000 * (D / 1000 + 1) := getMSTimeDiff_add _ _ (by omega)
    simp only [List.singleton_append, loop, hdiff, hk2, ne_eq, not_true_eq_false, if_false,
      Bool.false_eq_true, gt_iff_lt, if_true]
    congr 1
    omega
  · rw [List.get?_eq_getElem?, List.getElem?_append_right (by omega)]
    have e : pre.length + 1 + D / 1000 - pre.length = (D / 1000) + 1 := by omega
    rw [e, List.getElem?_cons_succ, List.getElem?_append_left (by simp [stalled])]
    simp [stalled, List.getElem?_range]
  · intro s hs
    simp only [stalled, List.mem_map, List.mem_range] at hs
    obtain ⟨i, hi, rfl⟩ := hs
    show ch.curtime + 1000 * (i + 1) ≤ ch.curtime + D
    have : 1000 * (i + 1) ≤ 1000 * (D / 1000) := Nat.mul_le_mul_left _ hi
    omega

/-- Witness of `freeze_within_bound`: threshold 2500 ms, a change recorded at time 7000; the
freeze is declared at the third sample after it (time 10000). -/
theorem freeze_within_bound_witness :
    run 2500 ([] ++ ({ curtime := 7000, worldLoopCounter := 4, stopped := false } : Sample) ::
      (stalled 7000 4 (2500 / 1000 + 1) ++ [])) = .freeze (0 + 1 + 2500 / 1000) :=
  (freeze_within_bound 2500 (by decide) [] []
    { w_loops := 0, w_lastchange := 0 }
    { curtime := 7000, worldLoopCounter := 4, stopped := false }
    (by decide) rfl (by decide) (by decide)).1

theorem loop_freeze_sound (D : Nat) (all : List Sample) (k : Nat) :
    ∀ (rest : List Sample) (n : Nat) (st : FreezeDetectorRunnable), all.drop n = rest →
      ((st = { w_loops := 0, w_lastchange := 0 } ∧
          ∀ i si, i < n → all[i]? = some si → si.worldLoopCounter = 0) ∨
        (∃ j sj, j < n ∧ all[j]? = some sj ∧
          st = { w_loops := sj.worldLoopCounter, w_lastchange := sj.curtime } ∧
          ∀ i si, j ≤ i → i < n → all[i]? = some si →
            si.worldLoopCounter = sj.worldLoopCounter)) →
      loop D st n rest = .freeze k →
      ∃ sk, all[k]? = some sk ∧ sk.stopped = false ∧
        ((∃ j sj, j < k ∧ all[j]? = some sj ∧ getMSTimeDiff sj.curtime sk.curtime > D ∧
            ∀ i si, j ≤ i → i ≤ k → all[i]? = some si →
              si.worldLoopCounter = sk.worldLoopCounter) ∨
          (getMSTimeDiff 0 sk.curtime > D ∧
            ∀ i si, i ≤ k → all[i]? = some si → si.worldLoopCounter = 0)) := by
  intro rest
  induction rest with
  | nil => intro n st _ _ h; simp [loop] at h
  | cons s rest ih =>
    intro n st hdrop hinv h
    have hn : all[n]? = some s := by
      have := congrArg (fun l => l[0]?) hdrop
      simpa [List.getElem?_drop] using this
    have hrest : all.drop (n + 1) = rest := by
      have := congrArg (fun l => l.drop 1) hdrop
      simpa [List.drop_drop, Nat.add_comm] using this
    have at_n : ∀ si, all[n]? = some si → si = s := by
      intro si hsi; rw [hn] at hsi; exact (Option.some.inj hsi).symm
    simp only [loop] at h
    split_ifs at h with h1 h2 h3
    · -- a change is recorded at sample `n`
      refine ih (n + 1) _ hrest (Or.inr ⟨n, s, Nat.lt_succ_self n, hn, rfl, ?_⟩) h
      intro i si hi1 hi2 hsi
      have : i = n := by omega
      subst this
      rw [at_n si hsi]
    · -- the terminate branch at sample `n`
      simp only [Outcome.freeze.injEq] at h
      subst h
      simp only [ne_eq, not_not] at h2
      refine ⟨s, hn, by simpa using h1, ?_⟩
      rcases hinv with ⟨rfl, h0⟩ | ⟨j, sj, hj, hsj, rfl, hc⟩
      · refine Or.inr ⟨h3, fun i si hi hsi => ?_⟩
        rcases Nat.lt_or_ge i n with hlt | hge
        · exact h0 i si hlt hsi
        · have : i = n := by omega
          subst this
          rw [at_n si hsi]
          exact h2.symm
      · refine Or.inl ⟨j, sj, hj, hsj, h3, fun i si hi1 hi2 hsi => ?_⟩
        rcases Nat.lt_or_ge i n with hlt | hge
        · rw [hc i si hi1 hlt hsi]; exact h2
        · have : i = n := by omega
          subst this
          rw [at_n si hsi]
    · -- no change, threshold not exceeded
      simp only [ne_eq, not_not] at h2
      refine ih (n + 1) st hrest ?_ h
      rcases hinv with ⟨rfl, h0⟩ | ⟨j, sj, hj, hsj, rfl, hc⟩
      · refine Or.inl ⟨rfl, fun i si hi hsi => ?_⟩
        rcases Nat.lt_or_ge i n with hlt | hge
        · exact h0 i si hlt hsi
        · have : i = n := by omega
          subst this
          rw [at_n si hsi]
          exact h2.symm
      · refine Or.inr ⟨j, sj, by omega, hsj, rfl, fun i si hi1 hi2 hsi => ?_⟩
        rcases Nat.lt_or_ge i n with hlt | hge
        · exact hc i si hi1 hlt hsi
        · have : i = n := by omega
          subst this
          rw [at_n si hsi]
          exact h2.symm

/-- What holds of every freeze declared by `run`: either the counter kept one value from an
earlier sample on, taken more than the threshold before, or the counter has read 0 at every
sample so far and the clock itself reads more than the threshold. -/
theorem freeze_sound_or_initial (D : Nat) (samples : List Sample) (k : Nat)
    (h : run D samples = .freeze k) :
    ∃ sk, samples[k]? = some sk ∧ sk.stopped = false ∧
      ((∃ j sj, j < k ∧ samples[j]? = some sj ∧ getMSTimeDiff sj.curtime sk.curtime > D ∧
          ∀ i si, j ≤ i → i ≤ k → samples[i]? = some si →
            si.worldLoopCounter = sk.worldLoopCounter) ∨
        (getMSTimeDiff 0 sk.curtime > D ∧
          ∀ i si, i ≤ k → samples[i]? = some si → si.worldLoopCounter = 0)) := by
  unfold run at h
  split_ifs at h
  exact loop_freeze_sound D samples k samples 0 _ rfl
    (Or.inl ⟨rfl, fun i si hi _ => absurd hi (Nat.not_lt_zero i)⟩) h
/-- C9 fails on the code: from its initial state (`w_loops = 0`, `w_lastchange = 0`) `run`
with threshold 1000 ms declares a freeze at the very first sample when the tick counter still
reads 0 there and the clock reads 5000: there is no earlier sample at all. -/
theorem freeze_at_first_sample :
    run 1000 [{ curtime := 5000, worldLoopCounter := 0, stopped := false }] = .freeze 0 ∧
    run 60000 ({ curtime := 120000, worldLoopCounter := 0, stopped := false } ::
      stalled 120000 0 3) = .freeze 0 := by
  decide

end FreezeDetectorRunnable

/-! ## Lemmas on the trace and the world statics -/

@[simp] theorem St.emit_trace (st : St) (a : Action) : (st.emit a).trace = st.trace ++ [a] := rfl

@[simp] theorem St.emit_world (st : St) (a : Action) : (st.emit a).world = st.world := rfl

@[simp] theorem St.emit_realmID (st : St) (a : Action) : (st.emit a).realmID = st.realmID := rfl

@[simp] theorem St.StopNow_trace (st : St) (c : ExitCode) : (st.StopNow c).trace = st.trace := rfl

@[simp] theorem St.StopNow_world (st : St) (c : ExitCode) :
    (st.StopNow c).world = st.world.StopNow c := rfl

@[simp] theorem St.StopNow_realmID (st : St) (c : ExitCode) :
    (st.StopNow c).realmID = st.realmID := rfl

theorem World.StopNow_of_stopped (w : World) (c : ExitCode) (h : w.m_stopEvent = true) :
    w.StopNow c = w := by
  simp [World.StopNow, h]

theorem World.StopNow_stopped (w : World) (c : ExitCode) : (w.StopNow c).m_stopEvent = true := by
  unfold World.StopNow
  split_ifs with h
  · exact h
  · rfl

theorem World.StopNow_of_running (w : World) (c : ExitCode) (h : w.m_stopEvent = false) :
    (w.StopNow c).m_ExitCode = some c := by
  simp [World.StopNow, h]

theorem World.WriteOnce_StopNow (w : World) (c : ExitCode) (h : w.WriteOnce) :
    (w.StopNow c).WriteOnce := by
  unfold World.StopNow
  split_ifs with hs
  · exact h
  · rcases h with ⟨_, _, h0⟩ | ⟨h1, _, _⟩
    · exact Or.inr ⟨rfl, ⟨c, rfl⟩, by simp [h0]⟩
    · exact absurd h1 hs

theorem StartDB_world (env : Env) (db : Database) (st : St) :
    (StartDB env db st).2.world = st.world ∧ (StartDB env db st).2.realmID = st.realmID := by
  unfold StartDB
  dsimp only
  split_ifs <;> first
    | (split <;> simp)
    | simp

theorem StartDB_mem (env : Env) (db : Database) (st : St) (a : Action)
    (ha : a.isStartupStep = false) :
    a ∈ (StartDB env db st).2.trace ↔ a ∈ st.trace := by
  unfold StartDB
  dsimp only
  split_ifs <;> first
    | (split <;> cases a <;> simp [Action.isStartupStep] at ha ⊢)
    | (cases a <;> simp [Action.isStartupStep] at ha ⊢)

namespace Master

theorem clearOnlineAccounts_trace (st : St) :
    (clearOnlineAccounts st).trace = st.trace ++
      [.execute .Login "UPDATE account SET online = 0 WHERE online<>0",
       .execute .Character "UPDATE characters SET online = 0 WHERE online<>0"] := by
  simp [clearOnlineAccounts]

theorem clearOnlineAccounts_world (st : St) :
    (clearOnlineAccounts st).world = st.world ∧ (clearOnlineAccounts st).realmID = st.realmID := by
  simp [clearOnlineAccounts]

theorem _StartDB_world (env : Env) (st : St) : (_StartDB env st).world = st.world := by
  unfold _StartDB
  dsimp only
  split_ifs <;>
    simp [clearOnlineAccounts_world, (StartDB_world _ _ _).1]

theorem _StartDB_mem (env : Env) (st : St) (a : Action) (ha : a.isStartupStep = false) :
    a ∈ (_StartDB env st).trace ↔ a ∈ st.trace := by
  have hne1 : ∀ db, a ≠ Action.haltDelayThread db := by
    rintro db rfl; simp [Action.isStartupStep] at ha
  have hne2 : ∀ db q, a ≠ Action.execute db q := by
    rintro db q rfl; simp [Action.isStartupStep] at ha
  have hne3 : ∀ f l, a ≠ Action.outError f l := by
    rintro f l rfl; simp [Action.isStartupStep] at ha
  have hne4 : ∀ f l, a ≠ Action.outString f l := by
    rintro f l rfl; simp [Action.isStartupStep] at ha
  unfold _StartDB
  dsimp only
  split_ifs <;>
    simp [clearOnlineAccounts_trace, StartDB_mem _ _ _ a ha, hne1, hne2, hne3, hne4]

theorem createPid_world (env : Env) (st : St) :
    (createPid env st).1.world = st.world := by
  unfold createPid
  dsimp only
  split_ifs <;> simp

theorem createPid_mem (env : Env) (st : St) (a : Action) (ha : a.isStartupStep = false) :
    a ∈ (createPid env st).1.trace ↔ a ∈ st.trace := by
  unfold createPid
  dsimp only
  split_ifs <;> cases a <;> simp [Action.isStartupStep] at ha ⊢

theorem createPid_ok (env : Env) (st : St) :
    (createPid env st).2 = true ↔ (env.config.PidFile.data = [] ∨ env.CreatePIDFile ≠ 0) := by
  unfold createPid
  dsimp only
  split_ifs with h1 h2
  · simp [h2]; exact h1
  · simp [h2]
  · simp only [ne_eq, not_not] at h1
    simp [h1]

theorem bootstrap_world (env : Env) (st : St) : (bootstrap env st).world = st.world := by
  simp [bootstrap, _HookSignals, ArmAnticrash, _StartDB_world]

theorem bootstrap_mem (env : Env) (st : St) (a : Action) (ha : a.isStartupStep = false) :
    a ∈ (bootstrap env st).trace ↔ a ∈ st.trace := by
  have h := _StartDB_mem env st a ha
  cases a <;>
    simp [bootstrap, _HookSignals, ArmAnticrash, Action.isStartupStep] at ha h ⊢ <;>
    first
      | exact h
      | (rename_i s hd; (cases hd <;> simp [Action.isStartupStep] at ha h ⊢); exact h)

theorem spawnWorkers_world (env : Env) (st : St) :
    (spawnWorkers env st).1.world = st.world := by
  unfold spawnWorkers
  dsimp only
  split_ifs <;> simp

theorem spawnWorkers_locals (env : Env) (st : St) :
    (spawnWorkers env st).2 =
      { cliThread := env.config.ConsoleEnable, soap_thread := env.config.SOAPEnabled,
        freeze_thread := decide (toUInt32 env.config.MaxCoreStuckTime ≠ 0) } := rfl

theorem spawnWorkers_spawn (env : Env) (st : St) (t : Thread)
    (hst : Action.spawn t ∉ st.trace) :
    Action.spawn t ∈ (spawnWorkers env st).1.trace ↔
      (t = .ra ∨ (t = .cli ∧ env.config.ConsoleEnable = true) ∨
        (t = .soap ∧ env.config.SOAPEnabled = true) ∨
        (t = .freeze ∧ toUInt32 env.config.MaxCoreStuckTime ≠ 0)) := by
  unfold spawnWorkers
  dsimp only
  split_ifs with h1 h2 h3 h3 h2 h3 h3 <;> cases t <;> simp_all

theorem spawnWorkers_setDelayTime (env : Env) (st : St) (ms : Nat)
    (hst : Action.setDelayTime ms ∉ st.trace)
    (h0 : toUInt32 env.config.MaxCoreStuckTime = 0) :
    Action.setDelayTime ms ∉ (spawnWorkers env st).1.trace := by
  unfold spawnWorkers
  dsimp only
  split_ifs <;> simp_all

theorem launchNetwork_world (env : Env) (st : St) :
    (launchNetwork env st).world =
      if env.StartNetwork = -1 then st.world.StopNow .ERROR_EXIT_CODE else st.world := by
  unfold launchNetwork
  dsimp only
  split_ifs <;> simp

theorem launchNetwork_mem (env : Env) (st : St) (a : Action) (ha : a.isStartupStep = false) :
    a ∈ (launchNetwork env st).trace ↔ a ∈ st.trace := by
  unfold launchNetwork
  dsimp only
  split_ifs <;> cases a <;> simp [Action.isStartupStep] at ha ⊢

theorem regressionTests_world (env : Env) (runTests : Bool) (st : St) :
    (regressionTests env runTests st).world =
      if runTests then
        (if env.RunAll then st.world.StopNow .SHUTDOWN_EXIT_CODE
         else st.world.StopNow .ERROR_EXIT_CODE)
      else st.world := by
  unfold regressionTests
  dsimp only
  split_ifs <;> simp

theorem regressionTests_mem (env : Env) (runTests : Bool) (st : St) (a : Action)
    (ha : a.isStartupStep = false) :
    a ∈ (regressionTests env runTests st).trace ↔ a ∈ st.trace := by
  unfold regressionTests
  dsimp only
  split_ifs <;> cases a <;> simp [Action.isStartupStep] at ha ⊢

theorem _OnSignal_trace (s : Signal) (st : St) :
    (_OnSignal s st).trace = st.trace ++ [.signal s .onSignal] := by
  cases s <;> simp [_OnSignal]

theorem _OnSignal_world (s : Signal) (st : St) :
    (_OnSignal s st).world =
      if s = .SIGINT ∨ s = .SIGTERM then st.world.StopNow .SHUTDOWN_EXIT_CODE else st.world := by
  cases s <;> simp [_OnSignal]

theorem _OnSignal_realmID (s : Signal) (st : St) : (_OnSignal s st).realmID = st.realmID := by
  cases s <;> simp [_OnSignal]

theorem _OnSignal_world_of_stopped (s : Signal) (st : St) (h : st.world.m_stopEvent = true) :
    (_OnSignal s st).world = st.world := by
  rw [_OnSignal_world]
  split_ifs
  · exact World.StopNow_of_stopped _ _ h
  · rfl

theorem _OnSignal_WriteOnce (s : Signal) (st : St) (h : st.world.WriteOnce) :
    (_OnSignal s st).world.WriteOnce := by
  rw [_OnSignal_world]
  split_ifs
  · exact World.WriteOnce_StopNow _ _ h
  · exact h

theorem signals_world_of_stopped (sigs : List Signal) :
    ∀ st : St, st.world.m_stopEvent = true →
      (sigs.foldl (fun st s => _OnSignal s st) st).world = st.world := by
  induction sigs with
  | nil => intro st _; rfl
  | cons s sigs ih =>
    intro st h
    have e := _OnSignal_world_of_stopped s st h
    rw [List.foldl_cons, ih _ (by rw [e]; exact h), e]

theorem signals_WriteOnce (sigs : List Signal) :
    ∀ st : St, st.world.WriteOnce →
      (sigs.foldl (fun st s => _OnSignal s st) st).world.WriteOnce := by
  induction sigs with
  | nil => intro st h; exact h
  | cons s sigs ih =>
    intro st h
    rw [List.foldl_cons]
    exact ih _ (_OnSignal_WriteOnce s st h)

theorem signals_mem (sigs : List Signal) (a : Action) (ha : a.isLoopAction = false) :
    ∀ st : St, a ∈ (sigs.foldl (fun st s => _OnSignal s st) st).trace ↔ a ∈ st.trace := by
  induction sigs with
  | nil => intro st; rfl
  | cons s sigs ih =>
    intro st
    rw [List.foldl_cons, ih, _OnSignal_trace]
    cases a <;> simp [Action.isLoopAction] at ha ⊢
    rintro rfl rfl
    simp at ha

theorem signals_mem_startup (sigs : List Signal) (a : Action) (ha : a.isStartupStep = false) :
    ∀ st : St, a ∈ (sigs.foldl (fun st s => _OnSignal s st) st).trace ↔ a ∈ st.trace := by
  induction sigs with
  | nil => intro st; rfl
  | cons s sigs ih =>
    intro st
    rw [List.foldl_cons, ih, _OnSignal_trace]
    cases a <;> simp [Action.isStartupStep] at ha ⊢
    rintro rfl rfl
    simp at ha

theorem signals_realmID (sigs : List Signal) :
    ∀ st : St, (sigs.foldl (fun st s => _OnSignal s st) st).realmID = st.realmID := by
  induction sigs with
  | nil => intro st; rfl
  | cons s sigs ih => intro st; rw [List.foldl_cons, ih, _OnSignal_realmID]

theorem tick_WriteOnce (t : Tick) (p s : Nat) (st : St) (h : st.world.WriteOnce) :
    (tick t p s st).1.world.WriteOnce := by
  unfold tick
  dsimp only
  apply signals_WriteOnce
  split <;> exact h

theorem tick_realmID (t : Tick) (p s : Nat) (st : St) :
    (tick t p s st).1.realmID = st.realmID := by
  unfold tick
  dsimp only
  rw [signals_realmID]
  split <;> rfl

theorem tick_mem (t : Tick) (p s : Nat) (st : St) (a : Action) (ha : a.isLoopAction = false) :
    a ∈ (tick t p s st).1.trace ↔ a ∈ st.trace := by
  unfold tick
  dsimp only
  rw [signals_mem _ a ha]
  split <;> cases a <;> simp [Action.isLoopAction] at ha ⊢

theorem mainLoop_spec (ticks : List Tick) :
    ∀ (p s : Nat) (st : St),
      ((mainLoop ticks p s st).2 = true → (mainLoop ticks p s st).1.world.m_stopEvent = true) ∧
      (st.world.WriteOnce → (mainLoop ticks p s st).1.world.WriteOnce) ∧
      (mainLoop ticks p s st).1.realmID = st.realmID ∧
      (∀ a : Action, a.isLoopAction = false →
        (a ∈ (mainLoop ticks p s st).1.trace ↔ a ∈ st.trace)) := by
  induction ticks with
  | nil =>
    intro p s st
    simp [mainLoop, World.IsStopped]
  | cons t rest ih =>
    intro p s st
    unfold mainLoop
    split_ifs with h
    · exact ⟨fun _ => h, fun hw => hw, rfl, fun _ _ => Iff.rfl⟩
    · obtain ⟨i1, i2, i3, i4⟩ := ih t.now (tick t p s st).2 (tick t p s st).1
      refine ⟨i1, fun hw => i2 (tick_WriteOnce t p s st hw), ?_, fun a ha => ?_⟩
      · rw [i3, tick_realmID]
      · rw [i4 a ha, tick_mem t p s st a ha]

theorem teardown_world (l : Locals) (st : St) :
    (teardown l st).world = st.world ∧ (teardown l st).realmID = st.realmID := by
  unfold teardown
  dsimp only
  split_ifs <;> simp [_UnhookSignals, clearOnlineAccounts]

theorem teardown_trace (l : Locals) (st : St) :
    ∃ tail : List Action, (teardown l st).trace = st.trace ++ tail ∧
      tail.filter (fun a => !a.isBookkeeping)
        = documentedTeardown st.realmID l.freeze_thread l.soap_thread l.cliThread ∧
      tail.filter (fun a => a.isBookkeeping)
        = [.outString "Halting process..." [], .restoreStderr] ∧
      tail.Nodup := by
  obtain ⟨cli, soap, frz⟩ := l
  cases cli <;> cases soap <;> cases frz <;>
    simp [teardown, _UnhookSignals, clearOnlineAccounts, documentedTeardown,
      Action.isBookkeeping]

theorem startup_of_pid_failure (env : Env) (runTests : Bool)
    (hp : (createPid env St.init).2 = false) :
    startup env runTests = ((createPid env St.init).1, none) := by
  simp [startup, hp]

theorem startup_of_pid_ok (env : Env) (runTests : Bool)
    (hp : (createPid env St.init).2 = true) :
    startup env runTests =
      (env.signalsBeforeLoop.foldl (fun st s => _OnSignal s st)
        (regressionTests env runTests
          (launchNetwork env
            (env.signalsBeforeNetwork.foldl (fun st s => _OnSignal s st)
              (spawnWorkers env (bootstrap env (createPid env St.init).1)).1))),
       some { cliThread := env.config.ConsoleEnable, soap_thread := env.config.SOAPEnabled,
              freeze_thread := decide (toUInt32 env.config.MaxCoreStuckTime ≠ 0) }) := by
  simp [startup, hp, spawnWorkers_locals]

theorem init_WriteOnce : St.init.world.WriteOnce := Or.inl ⟨rfl, rfl, rfl⟩

theorem launchNetwork_WriteOnce (env : Env) (st : St) (h : st.world.WriteOnce) :
    (launchNetwork env st).world.WriteOnce := by
  rw [launchNetwork_world]
  split_ifs
  · exact World.WriteOnce_StopNow _ _ h
  · exact h

theorem regressionTests_WriteOnce (env : Env) (runTests : Bool) (st : St)
    (h : st.world.WriteOnce) : (regressionTests env runTests st).world.WriteOnce := by
  rw [regressionTests_world]
  split_ifs
  · exact World.WriteOnce_StopNow _ _ h
  · exact World.WriteOnce_StopNow _ _ h
  · exact h

theorem startup_WriteOnce (env : Env) (runTests : Bool) :
    (startup env runTests).1.world.WriteOnce := by
  cases hp : (createPid env St.init).2
  · rw [startup_of_pid_failure env runTests hp, createPid_world]
    exact init_WriteOnce
  · rw [startup_of_pid_ok env runTests hp]
    apply signals_WriteOnce
    apply regressionTests_WriteOnce
    apply launchNetwork_WriteOnce
    apply signals_WriteOnce
    rw [spawnWorkers_world, bootstrap_world, createPid_world]
    exact init_WriteOnce

theorem startup_mem (env : Env) (runTests : Bool) (a : Action) (ha : a.isStartupStep = false) :
    a ∈ (startup env runTests).1.trace ↔
      ((createPid env St.init).2 = true ∧
        a ∈ (spawnWorkers env (bootstrap env (createPid env St.init).1)).1.trace) := by
  cases hp : (createPid env St.init).2
  · rw [startup_of_pid_failure env runTests hp, createPid_mem env _ a ha]
    simp [St.init]
  · rw [startup_of_pid_ok env runTests hp]
    dsimp only
    rw [signals_mem_startup _ a ha, regressionTests_mem _ _ _ a ha, launchNetwork_mem _ _ a ha,
      signals_mem_startup _ a ha]
    simp

theorem not_mem_before_workers (env : Env) (a : Action) (ha : a.isStartupStep = false) :
    a ∉ (bootstrap env (createPid env St.init).1).trace := by
  rw [bootstrap_mem env _ a ha, createPid_mem env _ a ha]
  simp [St.init]

theorem Run_of_pid_failure (env : Env) (runTests : Bool) (st : St)
    (hs : startup env runTests = (st, none)) :
    Run env runTests = { trace := st.trace, world := st.world, ret := some (.literal 1) } := by
  simp [Run, hs]

theorem Run_of_looping (env : Env) (runTests : Bool) (st0 st : St) (l : Locals)
    (hs : startup env runTests = (st0, some l)) (hm : MainLoop env st0 = (st, false)) :
    Run env runTests = { trace := st.trace, world := st.world, ret := none } := by
  simp [Run, hs, hm]

theorem Run_of_return (env : Env) (runTests : Bool) (st0 st : St) (l : Locals)
    (hs : startup env runTests = (st0, some l)) (hm : MainLoop env st0 = (st, true)) :
    Run env runTests =
      { trace := (teardown l st).trace, world := (teardown l st).world,
        ret := some (.exitCode (teardown l st).world.GetExitCode) } := by
  simp [Run, hs, hm]

/-- Membership in the trace of a whole run, for an action that is neither a sequential
startup step, nor a loop action, nor a teardown step: it can only stem from thread creation. -/
theorem Run_mem (env : Env) (runTests : Bool) (a : Action)
    (h1 : a.isStartupStep = false) (h2 : a.isLoopAction = false)
    (h3 : a.isBookkeeping = false)
    (h4 : ∀ (r : Int) (f s c : Bool), a ∉ documentedTeardown r f s c) :
    a ∈ (Run env runTests).trace ↔
      ((createPid env St.init).2 = true ∧
        a ∈ (spawnWorkers env (bootstrap env (createPid env St.init).1)).1.trace) := by
  rw [← startup_mem env runTests a h1]
  rcases hs : startup env runTests with ⟨st0, _ | l⟩
  · rw [Run_of_pid_failure env runTests st0 hs]
  · obtain ⟨-, -, -, i4⟩ := mainLoop_spec env.ticks env.startTime 0 st0
    have i5 := i4 a h2
    rcases hm : MainLoop env st0 with ⟨st, _ | _⟩
    · rw [Run_of_looping env runTests st0 st l hs hm]
      unfold MainLoop at hm
      rw [hm] at i5
      exact i5
    · rw [Run_of_return env runTests st0 st l hs hm]
      unfold MainLoop at hm
      rw [hm] at i5
      obtain ⟨tail, ht, hf, -, -⟩ := teardown_trace l st
      dsimp only at i5 ⊢
      rw [ht, List.mem_append, i5]
      constructor
      · rintro (h | h)
        · exact h
        · exfalso
          have : a ∈ tail.filter (fun a => !a.isBookkeeping) :=
            List.mem_filter.mpr ⟨h, by simp [h3]⟩
          rw [hf] at this
          exact h4 _ _ _ _ this
      · exact Or.inl

theorem spawnWorkers_subset (env : Env) (st : St) (a : Action) (h : a ∈ st.trace) :
    a ∈ (spawnWorkers env st).1.trace := by
  unfold spawnWorkers
  dsimp only
  split_ifs <;> simp [h]

theorem launchNetwork_subset (env : Env) (st : St) (a : Action) (h : a ∈ st.trace) :
    a ∈ (launchNetwork env st).trace := by
  unfold launchNetwork
  dsimp only
  split_ifs <;> simp [h]

theorem regressionTests_subset (env : Env) (runTests : Bool) (st : St) (a : Action)
    (h : a ∈ st.trace) : a ∈ (regressionTests env runTests st).trace := by
  unfold regressionTests
  dsimp only
  split_ifs <;> simp [h]

theorem signals_subset (sigs : List Signal) (a : Action) :
    ∀ st : St, a ∈ st.trace → a ∈ (sigs.foldl (fun st s => _OnSignal s st) st).trace := by
  induction sigs with
  | nil => intro st h; exact h
  | cons s sigs ih =>
    intro st h
    rw [List.foldl_cons]
    apply ih
    rw [_OnSignal_trace]
    exact List.mem_append_left _ h

theorem tick_subset (t : Tick) (p s : Nat) (st : St) (a : Action) (h : a ∈ st.trace) :
    a ∈ (tick t p s st).1.trace := by
  unfold tick
  dsimp only
  apply signals_subset
  split <;> simp [h]

theorem mainLoop_subset (ticks : List Tick) (a : Action) :
    ∀ (p s : Nat) (st : St), a ∈ st.trace → a ∈ (mainLoop ticks p s st).1.trace := by
  induction ticks with
  | nil => intro p s st h; exact h
  | cons t rest ih =>
    intro p s st h
    unfold mainLoop
    split_ifs
    · exact h
    · exact ih _ _ _ (tick_subset t p s st a h)

theorem Run_subset (env : Env) (runTests : Bool) (a : Action)
    (h : a ∈ (startup env runTests).1.trace) : a ∈ (Run env runTests).trace := by
  rcases hs : startup env runTests with ⟨st0, _ | l⟩
  · rw [Run_of_pid_failure env runTests st0 hs]
    rw [hs] at h
    exact h
  · rw [hs] at h
    have hl := mainLoop_subset env.ticks a env.startTime 0 st0 h
    rcases hm : MainLoop env st0 with ⟨st, _ | _⟩
    · rw [Run_of_looping env runTests st0 st l hs hm]
      unfold MainLoop at hm
      rw [hm] at hl
      exact hl
    · rw [Run_of_return env runTests st0 st l hs hm]
      unfold MainLoop at hm
      rw [hm] at hl
      obtain ⟨tail, ht, -⟩ := teardown_trace l st
      dsimp only
      rw [ht]
      exact List.mem_append_left _ hl

/-- Whatever `_StartDB` did, a run that gets past the PID file step bootstraps the world,
allows async transactions, hooks the signals, spawns the remote-admin thread and starts the
network. -/
theorem startup_continues_after_StartDB (env : Env) (runTests : Bool)
    (hpid : env.config.PidFile.data = [] ∨ env.CreatePIDFile ≠ 0) :
    Action.setInitialWorldSettings ∈ (Run env runTests).trace ∧
    Action.allowAsyncTransactions .World ∈ (Run env runTests).trace ∧
    Action.signal .SIGINT .onSignal ∈ (Run env runTests).trace ∧
    Action.spawn .ra ∈ (Run env runTests).trace ∧
    Action.startNetwork ∈ (Run env runTests).trace := by
  have hp : (createPid env St.init).2 = true := (createPid_ok env St.init).mpr hpid
  have hb : ∀ a : Action, a ∈ (bootstrap env (createPid env St.init).1).trace →
      a ∈ (Run env runTests).trace := by
    intro a ha
    apply Run_subset
    rw [startup_of_pid_ok env runTests hp]
    exact signals_subset _ _ _ (regressionTests_subset _ _ _ _
      (launchNetwork_subset _ _ _ (signals_subset _ _ _ (spawnWorkers_subset _ _ _ ha))))
  refine ⟨hb _ ?_, hb _ ?_, hb _ ?_, ?_, ?_⟩
  · simp [bootstrap, _HookSignals, ArmAnticrash]
  · simp [bootstrap, _HookSignals, ArmAnticrash]
  · simp [bootstrap, _HookSignals, ArmAnticrash]
  · apply Run_subset
    rw [startup_of_pid_ok env runTests hp]
    refine signals_subset _ _ _ (regressionTests_subset _ _ _ _
      (launchNetwork_subset _ _ _ (signals_subset _ _ _ ?_)))
    unfold spawnWorkers
    dsimp only
    split_ifs <;> simp
  · apply Run_subset
    rw [startup_of_pid_ok env runTests hp]
    refine signals_subset _ _ _ (regressionTests_subset _ _ _ _ ?_)
    unfold launchNetwork
    dsimp only
    split_ifs <;> simp

theorem pid_ok_of_startup (env : Env) (runTests : Bool) (st0 : St) (l : Locals)
    (hs : startup env runTests = (st0, some l)) : (createPid env St.init).2 = true := by
  cases hp : (createPid env St.init).2
  · rw [startup_of_pid_failure env runTests hp] at hs
    simp at hs
  · rfl

theorem spawned_iff (env : Env) (runTests : Bool) (st0 st : St) (l : Locals) (fl : Bool)
    (hs : startup env runTests = (st0, some l)) (hm : MainLoop env st0 = (st, fl)) :
    (Action.spawn .freeze ∈ st.trace ↔ l.freeze_thread = true) ∧
    (Action.spawn .soap ∈ st.trace ↔ l.soap_thread = true) ∧
    (Action.spawn .cli ∈ st.trace ↔ l.cliThread = true) ∧
    Action.spawn .ra ∈ st.trace := by
  have hp := pid_ok_of_startup env runTests st0 l hs
  obtain ⟨-, -, -, i4⟩ := mainLoop_spec env.ticks env.startTime 0 st0
  unfold MainLoop at hm
  rw [hm] at i4
  have key : ∀ t : Thread, Action.spawn t ∈ st.trace ↔
      (t = .ra ∨ (t = .cli ∧ env.config.ConsoleEnable = true) ∨
        (t = .soap ∧ env.config.SOAPEnabled = true) ∨
        (t = .freeze ∧ toUInt32 env.config.MaxCoreStuckTime ≠ 0)) := by
    intro t
    have h1 := startup_mem env runTests (.spawn t) rfl
    rw [hs] at h1
    rw [i4 (.spawn t) rfl, h1, spawnWorkers_spawn env _ t (not_mem_before_workers env _ rfl)]
    simp [hp]
  rw [startup_of_pid_ok env runTests hp] at hs
  obtain ⟨-, hl⟩ := Prod.mk.inj hs
  obtain rfl := Option.some.inj hl
  refine ⟨?_, ?_, ?_, ?_⟩ <;> rw [key] <;> simp

theorem teardown_after_loop (env : Env) (runTests : Bool) (st0 st : St) (l : Locals)
    (hs : startup env runTests = (st0, some l)) (hm : MainLoop env st0 = (st, true)) :
    ∃ tail : List Action,
      (Run env runTests).trace = st.trace ++ tail ∧
      tail.filter (fun a => !a.isBookkeeping) =
        documentedTeardown st.realmID (decide (Action.spawn .freeze ∈ st.trace))
          (decide (Action.spawn .soap ∈ st.trace)) (decide (Action.spawn .cli ∈ st.trace)) ∧
      tail.filter (fun a => a.isBookkeeping) =
        [.outString "Halting process..." [], .restoreStderr] ∧
      tail.Nodup ∧
      (Run env runTests).ret = some (.exitCode st.world.m_ExitCode) := by
  obtain ⟨tail, ht, hf, hb, hn⟩ := teardown_trace l st
  obtain ⟨s1, s2, s3, -⟩ := spawned_iff env runTests st0 st l true hs hm
  refine ⟨tail, ?_, ?_, hb, hn, ?_⟩
  · rw [Run_of_return env runTests st0 st l hs hm]
    exact ht
  · rw [hf]
    congr 1
    · cases h : l.freeze_thread <;> simp [s1, h]
    · cases h : l.soap_thread <;> simp [s2, h]
    · cases h : l.cliThread <;> simp [s3, h]
  · rw [Run_of_return env runTests st0 st l hs hm]
    simp [World.GetExitCode, (teardown_world l st).1]

/-- C2: after `MainLoop` returns, `Run` performs the teardown steps in the documented order,
whatever the configuration and the state in which the loop ended.  The actions performed
after the loop, log output and stderr restoration aside, are exactly the documented list: the
watchdog, SOAP and console steps are present precisely when that thread was spawned, and no
action occurs twice. -/
theorem teardown_in_documented_order (env : Env) (runTests : Bool) (st0 st : St) (l : Locals)
    (hs : startup env runTests = (st0, some l)) (hm : MainLoop env st0 = (st, true)) :
    ∃ tail : List Action,
      (Run env runTests).trace = st.trace ++ tail ∧
      tail.filter (fun a => !a.isBookkeeping) =
        documentedTeardown st.realmID (decide (Action.spawn .freeze ∈ st.trace))
          (decide (Action.spawn .soap ∈ st.trace)) (decide (Action.spawn .cli ∈ st.trace)) ∧
      tail.filter (fun a => a.isBookkeeping) =
        [.outString "Halting process..." [], .restoreStderr] ∧
      tail.Nodup ∧
      (Run env runTests).ret = some (.exitCode st.world.m_ExitCode) :=
  teardown_after_loop env runTests st0 st l hs hm

/-- Witness of `teardown_in_documented_order`: a run with console and watchdog, stopped by
SIGINT in its second tick. -/
theorem teardown_in_documented_order_witness :
    ∃ tail : List Action,
      (Run sampleEnv false).trace = (MainLoop sampleEnv (startup sampleEnv false).1).1.trace ++ tail ∧
      tail.filter (fun a => !a.isBookkeeping) = documentedTeardown 1 true false true := by
  obtain ⟨tail, h1, h2, -⟩ := teardown_in_documented_order sampleEnv false
    (startup sampleEnv false).1 (MainLoop sampleEnv (startup sampleEnv false).1).1
    { cliThread := true, soap_thread := false, freeze_thread := true } (by decide) (by decide)
  refine ⟨tail, h1, ?_⟩
  rw [h2]
  decide

/-- C4: with a stuck-time threshold of 0 the watchdog is inert.  `run` with `_delaytime = 0`
returns at once for every sample history: it takes no sample and never reaches the terminate
branch.  And `Run` with `MaxCoreStuckTime = 0` creates no freeze thread: neither
`SetDelayTime`, nor the thread construction, nor `setPriority` occurs in the run. -/
theorem watchdog_inert_at_zero :
    (∀ samples : List Sample,
      FreezeDetectorRunnable.run 0 samples = .inert ∧
      (FreezeDetectorRunnable.run 0 samples).samplesTaken samples.length = 0 ∧
      ∀ n : Nat, FreezeDetectorRunnable.run 0 samples ≠ .freeze n) ∧
    (∀ (env : Env) (runTests : Bool), env.config.MaxCoreStuckTime = 0 →
      Action.spawn .freeze ∉ (Run env runTests).trace ∧
      Action.setPriorityHighest .freeze ∉ (Run env runTests).trace ∧
      ∀ ms : Nat, Action.setDelayTime ms ∉ (Run env runTests).trace) := by
  constructor
  · intro samples
    have h : FreezeDetectorRunnable.run 0 samples = .inert := by
      simp [FreezeDetectorRunnable.run]
    rw [h]
    exact ⟨rfl, rfl, fun n hn => by cases hn⟩
  · intro env runTests h0
    have hz : toUInt32 env.config.MaxCoreStuckTime = 0 := by rw [h0]; rfl
    have hd : ∀ (r : Int) (f s c : Bool) (a : Action),
        (a = .spawn .freeze ∨ a = .setPriorityHighest .freeze ∨ ∃ ms, a = .setDelayTime ms) →
        a ∉ documentedTeardown r f s c := by
      intro r f s c a ha
      rcases ha with rfl | rfl | ⟨ms, rfl⟩ <;>
        cases f <;> cases s <;> cases c <;> simp [documentedTeardown]
    refine ⟨?_, ?_, fun ms => ?_⟩
    · rw [Run_mem env runTests (.spawn .freeze) rfl rfl rfl
          (fun r f s c => hd r f s c _ (Or.inl rfl)),
        spawnWorkers_spawn env _ _ (not_mem_before_workers env _ rfl)]
      simp [hz]
    · rw [Run_mem env runTests (.setPriorityHighest .freeze) rfl rfl rfl
        (fun r f s c => hd r f s c _ (Or.inr (Or.inl rfl)))]
      have hb := not_mem_before_workers env (.setPriorityHighest .freeze) rfl
      rintro ⟨-, h⟩
      revert h
      unfold spawnWorkers
      dsimp only
      split_ifs <;> simp_all
    · rw [Run_mem env runTests (.setDelayTime ms) rfl rfl rfl
        (fun r f s c => hd r f s c _ (Or.inr (Or.inr ⟨ms, rfl⟩)))]
      rintro ⟨-, h⟩
      exact spawnWorkers_setDelayTime env _ ms (not_mem_before_workers env _ rfl) hz h

/-- Witness of `watchdog_inert_at_zero`: a complete run with `MaxCoreStuckTime = 0`. -/
theorem watchdog_inert_at_zero_witness :
    noWatchdogEnv.config.MaxCoreStuckTime = 0 ∧
    (Run noWatchdogEnv false).ret = some (.exitCode (some .SHUTDOWN_EXIT_CODE)) ∧
    Action.spawn .freeze ∉ (Run noWatchdogEnv false).trace :=
  ⟨rfl, by decide, (watchdog_inert_at_zero.2 noWatchdogEnv false rfl).1⟩

/-- C5 fails on the code: `_StartDB` returns `void` and `Run` does not inspect its outcome.
With `RealmID` unset, and likewise with the character database unreachable, `Run` goes on to
bootstrap the world, allow async transactions, hook signals, spawn threads, start the network
and update the world in the main loop; the value returned is the exit code recorded by the
later SIGINT (Shutdown), not Error. -/
theorem startup_failure_not_propagated :
    (_StartDB realmUnsetEnv St.init).trace
      = [.outError "Realm ID not defined in configuration file" []] ∧
    (Action.setInitialWorldSettings ∈ (Run realmUnsetEnv false).trace ∧
      Action.allowAsyncTransactions .World ∈ (Run realmUnsetEnv false).trace ∧
      Action.signal .SIGINT .onSignal ∈ (Run realmUnsetEnv false).trace ∧
      Action.spawn .ra ∈ (Run realmUnsetEnv false).trace ∧
      Action.startNetwork ∈ (Run realmUnsetEnv false).trace ∧
      Action.worldUpdate 2 ∈ (Run realmUnsetEnv false).trace ∧
      (Run realmUnsetEnv false).ret = some (.exitCode (some .SHUTDOWN_EXIT_CODE))) ∧
    (Action.outError "Cannot connect to world database %s" [.str "Character"]
        ∈ (Run dbDownEnv false).trace ∧
      Action.setInitialWorldSettings ∈ (Run dbDownEnv false).trace ∧
      Action.allowAsyncTransactions .World ∈ (Run dbDownEnv false).trace ∧
      Action.spawn .ra ∈ (Run dbDownEnv false).trace ∧
      Action.startNetwork ∈ (Run dbDownEnv false).trace ∧
      Action.worldUpdate 2 ∈ (Run dbDownEnv false).trace ∧
      (Run dbDownEnv false).ret = some (.exitCode (some .SHUTDOWN_EXIT_CODE))) := by
  decide

/-- C7: stop requests are idempotent on the lifecycle state.  `_OnSignal` for SIGINT or
SIGTERM only requests stop with exit code Shutdown and re-registers itself, and performs no
other action; when no stop was requested before, the stop flag becomes set and the exit code
Shutdown.  In every state in which stop has already been requested, a further signal (and any
sequence of signals, and any further stop request) leaves the stop flag and the recorded exit
code unchanged.  In every run the exit code is assigned at most once, and exactly once when
`Run` returns it. -/
theorem stop_requests_idempotent :
    (∀ (s : Signal) (st : St), s = .SIGINT ∨ s = .SIGTERM →
      _OnSignal s st =
        { st with world := st.world.StopNow .SHUTDOWN_EXIT_CODE,
                  trace := st.trace ++ [.signal s .onSignal] } ∧
      (st.world.m_stopEvent = false →
        (_OnSignal s st).world.m_stopEvent = true ∧
        (_OnSignal s st).world.m_ExitCode = some .SHUTDOWN_EXIT_CODE)) ∧
    (∀ (s : Signal) (st : St), st.world.m_stopEvent = true →
      (_OnSignal s st).world = st.world) ∧
    (∀ (sigs : List Signal) (st : St), st.world.m_stopEvent = true →
      (sigs.foldl (fun st s => _OnSignal s st) st).world = st.world) ∧
    (∀ (c : ExitCode) (w : World), w.m_stopEvent = true → w.StopNow c = w) ∧
    (∀ (env : Env) (runTests : Bool),
      (Run env runTests).world.exitCodeWrites ≤ 1 ∧
      ∀ c : Option ExitCode, (Run env runTests).ret = some (.exitCode c) →
        (Run env runTests).world.exitCodeWrites = 1 ∧
        c = (Run env runTests).world.m_ExitCode ∧ ∃ e, c = some e) := by
  refine ⟨?_, fun s st h => _OnSignal_world_of_stopped s st h,
    fun sigs st h => signals_world_of_stopped sigs st h,
    fun c w h => World.StopNow_of_stopped w c h, ?_⟩
  · intro s st hs
    constructor
    · rcases hs with rfl | rfl <;> rfl
    · intro h
      rw [_OnSignal_world, if_pos hs]
      exact ⟨World.StopNow_stopped _ _, World.StopNow_of_running _ _ h⟩
  · intro env runTests
    have key : (Run env runTests).world.WriteOnce ∧
        ∀ c : Option ExitCode, (Run env runTests).ret = some (.exitCode c) →
          (Run env runTests).world.m_stopEvent = true ∧
          c = (Run env runTests).world.m_ExitCode := by
      have h0 := startup_WriteOnce env runTests
      rcases hs : startup env runTests with ⟨st0, _ | l⟩
      · rw [Run_of_pid_failure env runTests st0 hs]
        rw [hs] at h0
        exact ⟨h0, fun c hc => by simp at hc⟩
      · rw [hs] at h0
        obtain ⟨i1, i2, -, -⟩ := mainLoop_spec env.ticks env.startTime 0 st0
        rcases hm : MainLoop env st0 with ⟨st, _ | _⟩
        · rw [Run_of_looping env runTests st0 st l hs hm]
          unfold MainLoop at hm
          rw [hm] at i2
          exact ⟨i2 h0, fun c hc => by simp at hc⟩
        · rw [Run_of_return env runTests st0 st l hs hm]
          unfold MainLoop at hm
          rw [hm] at i1 i2
          dsimp only at i1 i2 ⊢
          rw [(teardown_world l st).1]
          refine ⟨i2 h0, fun c hc => ⟨i1 rfl, ?_⟩⟩
          simp only [World.GetExitCode, Option.some.injEq, Return.exitCode.injEq] at hc
          exact hc.symm
    obtain ⟨hw, hc⟩ := key
    constructor
    · rcases hw with ⟨-, -, h⟩ | ⟨-, -, h⟩ <;> omega
    · intro c h
      obtain ⟨h1, h2⟩ := hc c h
      rcases hw with ⟨h3, -, -⟩ | ⟨-, ⟨e, he⟩, h4⟩
      · rw [h1] at h3; cases h3
      · exact ⟨h4, h2, e, by rw [h2, he]⟩

/-- Witness of `stop_requests_idempotent`: SIGTERM after a bind failure leaves the recorded
Error code in place. -/
theorem stop_requests_idempotent_witness :
    (_OnSignal .SIGTERM ((St.init.emit .startNetwork).StopNow .ERROR_EXIT_CODE)).world
      = ((St.init.emit .startNetwork).StopNow .ERROR_EXIT_CODE).world ∧
    ((St.init.emit .startNetwork).StopNow .ERROR_EXIT_CODE).world.m_ExitCode
      = some .ERROR_EXIT_CODE :=
  ⟨stop_requests_idempotent.2.1 .SIGTERM ((St.init.emit .startNetwork).StopNow .ERROR_EXIT_CODE)
    rfl, rfl⟩

end Master

/-! ## Theorems: password masking in StartDB -/

theorem getD_mid (pre post : List Char) (c d : Char) :
    (pre ++ c :: post).getD pre.length d = c := by
  rw [List.getD_append_right _ _ _ _ (Nat.le_refl _)]
  simp

theorem getD_seg (pre seg post : List Char) (h : ';' ∉ seg) (i : Nat)
    (h1 : pre.length ≤ i) (h2 : i < pre.length + seg.length) :
    (pre ++ (seg ++ post)).getD i ' ' ≠ ';' := by
  rw [List.getD_append_right _ _ _ _ h1, List.getD_append _ _ _ _ (by omega),
    List.getD_eq_getElem _ _ (by omega)]
  intro e
  exact h (e ▸ List.getElem_mem _)

theorem scan_plain (s : List Char) (fuel itr occ st sp : Nat) (hlt : itr < s.length)
    (hc : s.getD itr ' ' ≠ ';')
    (h3 : ¬ (occ = 3 ∧ st = s.length)) (h4 : ¬ (occ = 4 ∧ sp = s.length))
    (hb : ¬ (st ≠ s.length ∧ sp ≠ s.length)) :
    scanLoop s (fuel + 1) { itr := itr, occurrence := occ, start := st, stop := sp }
      = scanLoop s fuel { itr := itr + 1, occurrence := occ, start := st, stop := sp } := by
  rw [scanLoop]
  simp only [Nat.ne_of_lt hlt, ne_eq, not_false_eq_true, if_true, hc, if_false, h3, h4, hb]

theorem scan_skip (s : List Char) (occ st sp : Nat)
    (h3 : ¬ (occ = 3 ∧ st = s.length)) (h4 : ¬ (occ = 4 ∧ sp = s.length))
    (hb : ¬ (st ≠ s.length ∧ sp ≠ s.length)) :
    ∀ (k fuel itr : Nat), itr + k ≤ s.length →
      (∀ i, itr ≤ i → i < itr + k → s.getD i ' ' ≠ ';') →
      scanLoop s (k + fuel) { itr := itr, occurrence := occ, start := st, stop := sp }
        = scanLoop s fuel { itr := itr + k, occurrence := occ, start := st, stop := sp } := by
  intro k
  induction k with
  | zero => intro fuel itr _ _; simp
  | succ k ih =>
    intro fuel itr hle hno
    have e : k + 1 + fuel = (k + fuel) + 1 := by omega
    rw [e, scan_plain s (k + fuel) itr occ st sp (by omega) (hno itr (Nat.le_refl _) (by omega))
      h3 h4 hb, ih fuel (itr + 1) (by omega) (fun i hi1 hi2 => hno i (by omega) (by omega))]
    congr 2
    omega

theorem scan_semicolon (s : List Char) (fuel itr occ : Nat) (hlt : itr < s.length)
    (hc : s.getD itr ' ' = ';') (hocc : occ < 2) :
    scanLoop s (fuel + 1)
        { itr := itr, occurrence := occ, start := s.length, stop := s.length }
      = scanLoop s fuel
        { itr := itr + 1, occurrence := occ + 1, start := s.length, stop := s.length } := by
  rw [scanLoop]
  have h3 : ¬ (occ + 1 = 3) := by omega
  have h4 : ¬ (occ + 1 = 4) := by omega
  simp only [hc, if_true]
  simp [Nat.ne_of_lt hlt, h3, h4]

theorem scan_third (s : List Char) (fuel itr : Nat) (hlt : itr + 1 < s.length)
    (hc : s.getD itr ' ' = ';') :
    scanLoop s (fuel + 1)
        { itr := itr, occurrence := 2, start := s.length, stop := s.length }
      = scanLoop s fuel
        { itr := itr + 2, occurrence := 3, start := itr + 1, stop := s.length } := by
  rw [scanLoop]
  have h1 : itr ≠ s.length := by omega
  simp only [hc, if_true]
  simp [h1]

theorem scan_fourth (s : List Char) (fuel itr st : Nat) (hlt : itr < s.length)
    (hst : st ≠ s.length) (hc : s.getD itr ' ' = ';') :
    scanLoop s (fuel + 1)
        { itr := itr, occurrence := 3, start := st, stop := s.length }
      = { itr := itr, occurrence := 4, start := st, stop := itr } := by
  rw [scanLoop]
  have h1 : itr ≠ s.length := by omega
  simp only [hc, if_true]
  simp [h1, hst]

theorem count_semicolon_of_not_mem (t : List Char) (h : ';' ∉ t) : t.count ';' = 0 :=
  List.count_eq_zero_of_not_mem h

/-- With a non-empty password the log form is the connection string with the fourth token
replaced by `*`. -/
theorem dbStringLog_of_nonempty_password (t1 t2 t3 t4 t5 : List Char) (c : Char)
    (h1 : ';' ∉ t1) (h2 : ';' ∉ t2) (h3 : ';' ∉ t3) (hc : c ≠ ';') (h4 : ';' ∉ t4)
    (h5 : ';' ∉ t5) :
    dbStringLog (String.mk (t1 ++ ';' :: (t2 ++ ';' :: (t3 ++ ';' :: (c :: t4 ++ ';' :: t5)))))
      = some (String.mk (t1 ++ ';' :: (t2 ++ ';' :: (t3 ++ ';' :: ('*' :: ';' :: t5))))) := by
  obtain ⟨s, hs⟩ : ∃ s, s = t1 ++ ';' :: (t2 ++ ';' :: (t3 ++ ';' :: (c :: t4 ++ ';' :: t5))) :=
    ⟨_, rfl⟩
  rw [← hs]
  have hcount : s.count ';' = 4 := by
    simp [hs, List.count_cons, count_semicolon_of_not_mem, h1, h2, h3, h4, h5, hc]
  have hlen : s.length = t1.length + t2.length + t3.length + t4.length + t5.length + 5 := by
    simp [hs]; omega
  -- the shapes of `s` around each token
  have s1 : s = [] ++ (t1 ++ ';' :: (t2 ++ ';' :: (t3 ++ ';' :: (c :: t4 ++ ';' :: t5)))) := by
    simp [hs]
  have s2 : s = (t1 ++ [';']) ++ (t2 ++ ';' :: (t3 ++ ';' :: (c :: t4 ++ ';' :: t5))) := by
    simp [hs]
  have s3 : s = (t1 ++ ';' :: t2 ++ [';']) ++ (t3 ++ ';' :: (c :: t4 ++ ';' :: t5)) := by
    simp [hs]
  have s4 : s = (t1 ++ ';' :: t2 ++ ';' :: t3 ++ [';', c]) ++ (t4 ++ ';' :: t5) := by
    simp [hs]
  have p1 : s.getD t1.length ' ' = ';' := by rw [hs]; exact getD_mid _ _ _ _
  have p2 : s.getD (t1.length + 1 + t2.length) ' ' = ';' := by
    have e : s = (t1 ++ ';' :: t2) ++ ';' :: (t3 ++ ';' :: (c :: t4 ++ ';' :: t5)) := by
      simp [hs]
    have l : (t1 ++ ';' :: t2).length = t1.length + 1 + t2.length := by simp; omega
    rw [← l, e]
    exact getD_mid _ _ _ _
  have p3 : s.getD (t1.length + 1 + t2.length + 1 + t3.length) ' ' = ';' := by
    have e : s = (t1 ++ ';' :: (t2 ++ ';' :: t3)) ++ ';' :: (c :: t4 ++ ';' :: t5) := by
      simp [hs]
    have l : (t1 ++ ';' :: (t2 ++ ';' :: t3)).length
        = t1.length + 1 + t2.length + 1 + t3.length := by simp; omega
    rw [← l, e]
    exact getD_mid _ _ _ _
  have p4 : s.getD (t1.length + 1 + t2.length + 1 + t3.length + 2 + t4.length) ' ' = ';' := by
    have e : s = (t1 ++ ';' :: (t2 ++ ';' :: (t3 ++ ';' :: c :: t4))) ++ ';' :: t5 := by
      simp [hs]
    have l : (t1 ++ ';' :: (t2 ++ ';' :: (t3 ++ ';' :: c :: t4))).length
        = t1.length + 1 + t2.length + 1 + t3.length + 2 + t4.length := by simp; omega
    rw [← l, e]
    exact getD_mid _ _ _ _
  have q1 : ∀ i, 0 ≤ i → i < 0 + t1.length → s.getD i ' ' ≠ ';' := by
    intro i hi1 hi2; rw [s1]; exact getD_seg [] t1 _ h1 i (by simp) (by simpa using hi2)
  have q2 : ∀ i, t1.length + 1 ≤ i → i < t1.length + 1 + t2.length → s.getD i ' ' ≠ ';' := by
    intro i hi1 hi2; rw [s2]; exact getD_seg _ t2 _ h2 i (by simpa using hi1) (by simpa using hi2)
  have q3 : ∀ i, t1.length + 1 + t2.length + 1 ≤ i →
      i < t1.length + 1 + t2.length + 1 + t3.length → s.getD i ' ' ≠ ';' := by
    intro i hi1 hi2; rw [s3]
    exact getD_seg _ t3 _ h3 i (by simp; omega) (by simp; omega)
  have q4 : ∀ i, t1.length + 1 + t2.length + 1 + t3.length + 2 ≤ i →
      i < t1.length + 1 + t2.length + 1 + t3.length + 2 + t4.length → s.getD i ' ' ≠ ';' := by
    intro i hi1 hi2; rw [s4]
    exact getD_seg _ t4 _ h4 i (by simp; omega) (by simp; omega)
  have hfuel : s.length + 1 =
      t1.length + ((t2.length + ((t3.length + ((t4.length + ((t5.length + 2) + 1)) + 1)) + 1)) + 1) := by
    omega
  have hscan : scanLoop s (s.length + 1)
      { itr := 0, occurrence := 0, start := s.length, stop := s.length }
      = { itr := t1.length + 1 + t2.length + 1 + t3.length + 2 + t4.length, occurrence := 4,
          start := t1.length + 1 + t2.length + 1 + t3.length + 1,
          stop := t1.length + 1 + t2.length + 1 + t3.length + 2 + t4.length } := by
    rw [hfuel]
    rw [scan_skip s 0 s.length s.length (by simp) (by simp) (by simp) t1.length _ 0 (by omega) q1]
    rw [Nat.zero_add, scan_semicolon s _ t1.length 0 (by omega) p1 (by omega)]
    rw [scan_skip s 1 s.length s.length (by simp) (by simp) (by simp) t2.length _ _ (by omega) q2]
    rw [scan_semicolon s _ _ 1 (by omega) p2 (by omega)]
    rw [scan_skip s 2 s.length s.length (by simp) (by simp) (by simp) t3.length _ _ (by omega) q3]
    rw [scan_third s _ _ (by omega) p3]
    rw [scan_skip s 3 _ s.length (by omega) (by simp) (by simp) t4.length _ _ (by omega) q4]
    rw [scan_fourth s _ _ _ (by omega) (by omega) p4]
  have htake : s.take (t1.length + 1 + t2.length + 1 + t3.length + 1)
      = t1 ++ ';' :: (t2 ++ ';' :: (t3 ++ [';'])) := by
    have e : s = (t1 ++ ';' :: (t2 ++ ';' :: (t3 ++ [';']))) ++ (c :: t4 ++ ';' :: t5) := by
      simp [hs]
    have l : (t1 ++ ';' :: (t2 ++ ';' :: (t3 ++ [';']))).length
        = t1.length + 1 + t2.length + 1 + t3.length + 1 := by simp; omega
    rw [e, ← l, List.take_left']
    rfl
  have hdrop : s.drop (t1.length + 1 + t2.length + 1 + t3.length + 2 + t4.length)
      = ';' :: t5 := by
    have e : s = (t1 ++ ';' :: (t2 ++ ';' :: (t3 ++ ';' :: c :: t4))) ++ (';' :: t5) := by
      simp [hs]
    have l : (t1 ++ ';' :: (t2 ++ ';' :: (t3 ++ ';' :: c :: t4))).length
        = t1.length + 1 + t2.length + 1 + t3.length + 2 + t4.length := by simp; omega
    rw [e, ← l, List.drop_left']
    rfl
  simp only [dbStringLog, hcount, if_true, hscan, replaceRange, htake, hdrop]
  simp

theorem scan_end (s : List Char) (fuel occ st sp : Nat) :
    scanLoop s fuel { itr := s.length, occurrence := occ, start := st, stop := sp }
      = { itr := s.length, occurrence := occ, start := st, stop := sp } := by
  cases fuel <;> simp [scanLoop]

/-- With an empty password the fourth semicolon is stepped over: everything after the third
semicolon is replaced by `*`. -/
theorem dbStringLog_of_empty_password (t1 t2 t3 t5 : List Char)
    (h1 : ';' ∉ t1) (h2 : ';' ∉ t2) (h3 : ';' ∉ t3) (h5 : ';' ∉ t5) :
    dbStringLog (String.mk (t1 ++ ';' :: (t2 ++ ';' :: (t3 ++ ';' :: ';' :: t5))))
      = some (String.mk (t1 ++ ';' :: (t2 ++ ';' :: (t3 ++ ';' :: ['*'])))) := by
  obtain ⟨s, hs⟩ : ∃ s, s = t1 ++ ';' :: (t2 ++ ';' :: (t3 ++ ';' :: ';' :: t5)) := ⟨_, rfl⟩
  rw [← hs]
  have hcount : s.count ';' = 4 := by
    simp [hs, List.count_cons, count_semicolon_of_not_mem, h1, h2, h3, h5]
  have hlen : s.length = t1.length + t2.length + t3.length + t5.length + 4 := by
    simp [hs]; omega
  have s1 : s = [] ++ (t1 ++ ';' :: (t2 ++ ';' :: (t3 ++ ';' :: ';' :: t5))) := by simp [hs]
  have s2 : s = (t1 ++ [';']) ++ (t2 ++ ';' :: (t3 ++ ';' :: ';' :: t5)) := by simp [hs]
  have s3 : s = (t1 ++ ';' :: t2 ++ [';']) ++ (t3 ++ ';' :: ';' :: t5) := by simp [hs]
  have s5 : s = (t1 ++ ';' :: t2 ++ ';' :: t3 ++ [';', ';']) ++ (t5 ++ []) := by simp [hs]
  have p1 : s.getD t1.length ' ' = ';' := by rw [hs]; exact getD_mid _ _ _ _
  have p2 : s.getD (t1.length + 1 + t2.length) ' ' = ';' := by
    have e : s = (t1 ++ ';' :: t2) ++ ';' :: (t3 ++ ';' :: ';' :: t5) := by simp [hs]
    have l : (t1 ++ ';' :: t2).length = t1.length + 1 + t2.length := by simp; omega
    rw [← l, e]
    exact getD_mid _ _ _ _
  have p3 : s.getD (t1.length + 1 + t2.length + 1 + t3.length) ' ' = ';' := by
    have e : s = (t1 ++ ';' :: (t2 ++ ';' :: t3)) ++ ';' :: (';' :: t5) := by simp [hs]
    have l : (t1 ++ ';' :: (t2 ++ ';' :: t3)).length
        = t1.length + 1 + t2.length + 1 + t3.length := by simp; omega
    rw [← l, e]
    exact getD_mid _ _ _ _
  have q1 : ∀ i, 0 ≤ i → i < 0 + t1.length → s.getD i ' ' ≠ ';' := by
    intro i hi1 hi2; rw [s1]; exact getD_seg [] t1 _ h1 i (by simp) (by simpa using hi2)
  have q2 : ∀ i, t1.length + 1 ≤ i → i < t1.length + 1 + t2.length → s.getD i ' ' ≠ ';' := by
    intro i hi1 hi2; rw [s2]; exact getD_seg _ t2 _ h2 i (by simpa using hi1) (by simpa using hi2)
  have q3 : ∀ i, t1.length + 1 + t2.length + 1 ≤ i →
      i < t1.length + 1 + t2.length + 1 + t3.length → s.getD i ' ' ≠ ';' := by
    intro i hi1 hi2; rw [s3]
    exact getD_seg _ t3 _ h3 i (by simp; omega) (by simp; omega)
  have q5 : ∀ i, t1.length + 1 + t2.length + 1 + t3.length + 2 ≤ i →
      i < t1.length + 1 + t2.length + 1 + t3.length + 2 + t5.length → s.getD i ' ' ≠ ';' := by
    intro i hi1 hi2; rw [s5]
    exact getD_seg _ t5 _ h5 i (by simp; omega) (by simp; omega)
  have hfuel : s.length + 1 =
      t1.length + ((t2.length + ((t3.length + ((t5.length + 2) + 1)) + 1)) + 1) := by
    omega
  have hend : t1.length + 1 + t2.length + 1 + t3.length + 2 + t5.length = s.length := by omega
  have hscan : scanLoop s (s.length + 1)
      { itr := 0, occurrence := 0, start := s.length, stop := s.length }
      = { itr := s.length, occurrence := 3,
          start := t1.length + 1 + t2.length + 1 + t3.length + 1, stop := s.length } := by
    rw [hfuel]
    rw [scan_skip s 0 s.length s.length (by simp) (by simp) (by simp) t1.length _ 0 (by omega) q1]
    rw [Nat.zero_add, scan_semicolon s _ t1.length 0 (by omega) p1 (by omega)]
    rw [scan_skip s 1 s.length s.length (by simp) (by simp) (by simp) t2.length _ _ (by omega) q2]
    rw [scan_semicolon s _ _ 1 (by omega) p2 (by omega)]
    rw [scan_skip s 2 s.length s.length (by simp) (by simp) (by simp) t3.length _ _ (by omega) q3]
    rw [scan_third s _ _ (by omega) p3]
    rw [scan_skip s 3 _ s.length (by omega) (by simp) (by simp) t5.length _ _ (by omega) q5]
    rw [hend, scan_end]
  have htake : s.take (t1.length + 1 + t2.length + 1 + t3.length + 1)
      = t1 ++ ';' :: (t2 ++ ';' :: (t3 ++ [';'])) := by
    have e : s = (t1 ++ ';' :: (t2 ++ ';' :: (t3 ++ [';']))) ++ (';' :: t5) := by
      simp [hs]
    have l : (t1 ++ ';' :: (t2 ++ ';' :: (t3 ++ [';']))).length
        = t1.length + 1 + t2.length + 1 + t3.length + 1 := by simp; omega
    rw [e, ← l, List.take_left']
    rfl
  simp only [dbStringLog, hcount, if_true, hscan, replaceRange, htake, List.drop_length]
  simp

/-- A connection string whose number of semicolons is not four is rejected: `StartDB`
returns `false` after one error message and `database.Initialize` is not called. -/
theorem StartDB_rejects (env : Env) (db : Database) (st : St)
    (h : (env.config.DatabaseInfo db).data.count ';' ≠ 4) :
    (StartDB env db st).1 = false ∧
    ∃ fmt : String, (StartDB env db st).2.trace = st.trace ++ [.outError fmt [.str db.name]] := by
  have hnone : dbStringLog (env.config.DatabaseInfo db) = none := by
    simp [dbStringLog, h]
  unfold StartDB
  dsimp only
  split_ifs with h1
  · exact ⟨rfl, _, rfl⟩
  · rw [hnone]
    exact ⟨rfl, _, rfl⟩
  · rw [hnone]
    exact ⟨rfl, _, rfl⟩

/-- C10 fails on the code for an empty password: the connection string
`127.0.0.1;3306;root;;characters` has four semicolons, yet the loop of lines 361-373 steps
over the fourth one (`start = ++itr` followed by the `++itr` of the `for`), `end` stays at
the end of the string, and the text logged is `127.0.0.1;3306;root;*`: the fifth token and
its separator are lost.  With a non-empty password the log is as documented. -/
theorem password_mask_drops_last_token :
    ("127.0.0.1;3306;root;;characters".data.count ';' = 4) ∧
    dbStringLog "127.0.0.1;3306;root;;characters" = some "127.0.0.1;3306;root;*" ∧
    dbStringLog "127.0.0.1;3306;root;;characters" ≠ some "127.0.0.1;3306;root;*;characters" ∧
    (StartDB emptyPasswordEnv .World St.init).2.trace =
      [.outString "%s Database: %s, sync threads: %i, workers: %i"
          [.str "World", .str "127.0.0.1;3306;root;*", .int 1, .int 1],
       .dbInitialize .World "127.0.0.1;3306;root;;characters" 1 1] ∧
    dbStringLog "127.0.0.1;3306;mangos;mangos;characters"
      = some "127.0.0.1;3306;mangos;*;characters" := by
  decide

end Worldserver
